import Mathlib

/-!
# microbit-platformer: the Play and Death game states

A shallow embedding of `source/PlayGameState.cpp` and `source/DeathGameState.cpp`.

* C++ `int` values are Lean `Int`s; signed overflow is undefined behaviour in C++ and is
  not modelled.
* The objects reached through pointers (`game`, `world`, `player`) are fields of the state
  record and every method is a function from state to state.
* Calls to the collaborators behind `game` (display, radio, scheduler, state switch) are
  appended, in program order, to `Game.events`.
* Every `world->getBlock` call made by the Play state is appended to
  `PlayGameState.lookups`, so that the coordinates that are read can be reasoned about.
-/

namespace platformer

/-! ## Types declared in headers -/

/-- Modelled from the spec: the `BlockType` enumeration (declared in `World.h`, which is not
among the sources). The four variants are the ones named in `renderBlock`. -/
inductive BlockType where
  | AIR
  | SOLID
  | FLAG
  | COIN
deriving DecidableEq, Repr

/-- Modelled from the spec: `Vector2i` (its source is not among the sources), an integer
grid position or velocity `(x, y)`. -/
structure Vector2i where
  x : Int
  y : Int
deriving DecidableEq, Repr

/-- Modelled from the spec: `Vector2i::getRelative(dx, dy)`, a copy moved by `(dx, dy)`. -/
def Vector2i.getRelative (v : Vector2i) (dx dy : Int) : Vector2i :=
  { x := v.x + dx, y := v.y + dy }

/-- Modelled from the spec: `Vector2i::addX(d)`, in place. -/
def Vector2i.addX (v : Vector2i) (d : Int) : Vector2i :=
  { v with x := v.x + d }

/-- Modelled from the spec: `Vector2i::addY(d)`, in place. -/
def Vector2i.addY (v : Vector2i) (d : Int) : Vector2i :=
  { v with y := v.y + d }

/-- Modelled from the spec: `Vector2i::setY(y)`, in place. -/
def Vector2i.setY (v : Vector2i) (y : Int) : Vector2i :=
  { v with y := y }

/-- Modelled from the spec: `World` (its source is not among the sources): an identifier,
the bounds `maxX`, `maxY` and the block grid. Block lookup is a total function of the
coordinate: what `World::getBlock` answers outside `[0,maxX) x [0,maxY)` is part of the
parameter `blocks`. -/
structure World where
  id : Int
  maxX : Int
  maxY : Int
  blocks : Int → Int → BlockType

/-- Modelled from the spec: `World::getBlock(location)`. -/
def World.getBlock (w : World) (loc : Vector2i) : BlockType :=
  w.blocks loc.x loc.y

/-- Modelled from the spec: `World::setBlock(location, type)`; only that cell changes. -/
def World.setBlock (w : World) (loc : Vector2i) (b : BlockType) : World :=
  { w with blocks := fun x y => if x = loc.x ∧ y = loc.y then b else w.blocks x y }

/-- A coordinate inside the grid `[0,maxX) x [0,maxY)`. -/
def World.inBounds (w : World) (loc : Vector2i) : Prop :=
  0 ≤ loc.x ∧ loc.x < w.maxX ∧ 0 ≤ loc.y ∧ loc.y < w.maxY

instance (w : World) (loc : Vector2i) : Decidable (w.inBounds loc) := by
  unfold World.inBounds; infer_instance

/-- Modelled from the spec: `Player` (its source is not among the sources): position and
velocity. -/
structure Player where
  location : Vector2i
  velocity : Vector2i
deriving DecidableEq, Repr

/-- Modelled from the spec: `Player::jump()` sets the vertical velocity to a fixed positive
jump impulse; the impulse (a constant of `Player`) is the parameter `impulse`. -/
def Player.jump (impulse : Int) (p : Player) : Player :=
  { p with velocity := p.velocity.setY impulse }

/-- Modelled from the spec: the `PacketType` enumeration (declared in a header that is not
among the sources). The three tags the sources name, and `OTHER` for every other tag. -/
inductive PacketType where
  | WORLD_COMPLETE
  | QUIT_WORLD
  | DISCONNECT
  | OTHER (tag : Nat)
deriving DecidableEq, Repr

/-- Modelled from the spec: `ByteBuf` (its source is not among the sources): a leading type
tag followed by the integer fields of the variant. -/
structure ByteBuf where
  packetType : PacketType
  ints : List Int
deriving DecidableEq, Repr

/-- Modelled from the spec: `ByteBuf::writePacketType`. -/
def ByteBuf.writePacketType (b : ByteBuf) (t : PacketType) : ByteBuf :=
  { b with packetType := t }

/-- Modelled from the spec: `ByteBuf::writeInt` appends one integer field. -/
def ByteBuf.writeInt (b : ByteBuf) (n : Int) : ByteBuf :=
  { b with ints := b.ints ++ [n] }

/-- Modelled from the spec: `ByteBuf::readPacketType` reads the leading tag. -/
def ByteBuf.readPacketType (b : ByteBuf) : PacketType :=
  b.packetType

/-- Modelled from the spec: `ByteBuf::readInt` reads the integer field after the tag (0 when
the buffer holds none). -/
def ByteBuf.readInt (b : ByteBuf) : Int :=
  b.ints.headD 0

/-- The state object `game->setState` can make active. -/
inductive GameState where
  | PLAY
  | DEATH (worldId : Int)
  | MENU
deriving DecidableEq, Repr

/-- One call into a collaborator reached through `game`. -/
inductive Event where
  | stopAnimation
  | scroll (text : String)
  | scrollNumber (n : Int)
  | scrollAsync (text : String)
  | sleep
  | sendPacket (out : ByteBuf)
  | disconnect
  | setState (next : GameState)
deriving DecidableEq, Repr

/-- Modelled from the spec: `Game` (its source is not among the sources): whether the game is
multiplayer, the active state, and the calls made so far, oldest first. -/
structure Game where
  multiplayer : Bool
  state : GameState
  events : List Event
  screen : Int → Int → Nat

/-- Record one collaborator call. -/
def Game.emit (g : Game) (e : Event) : Game :=
  { g with events := g.events ++ [e] }

/-- Modelled from the spec: `Game::createPacket`, an empty outgoing buffer whose tag is
written next. -/
def Game.createPacket : ByteBuf :=
  { packetType := PacketType.OTHER 0, ints := [] }

/-- Modelled from the spec: `Game::sendPacket`. -/
def Game.sendPacket (g : Game) (out : ByteBuf) : Game :=
  g.emit (Event.sendPacket out)

/-- Modelled from the spec: `Game::disconnect` tears down the transport link. -/
def Game.disconnect (g : Game) : Game :=
  g.emit Event.disconnect

/-- Modelled from the spec: `Game::setState` makes `next` the active state. -/
def Game.setState (g : Game) (next : GameState) : Game :=
  { (g.emit (Event.setState next)) with state := next }

/-- The packets handed to `Game::sendPacket`, oldest first. -/
def Game.sent (g : Game) : List ByteBuf :=
  g.events.filterMap fun e => match e with
    | Event.sendPacket out => some out
    | _ => none

/-- The C++ conversion `(uint16_t) i`. -/
def toUInt16 (i : Int) : Int :=
  i % 65536

/-- Modelled from the spec: `MicroBitImage::setPixelValue(x, y, value)` on the screen buffer
(an external collaborator): paints the pixel when `(x, y)` is on the image, else does
nothing. -/
def Game.setPixelValue (g : Game) (x y : Int) (value : Nat) : Game :=
  if 0 ≤ x ∧ x < 5 ∧ 0 ≤ y ∧ y < 5 then
    { g with screen := fun a b => if a = x ∧ b = y then value else g.screen a b }
  else g

/-- Modelled from the spec: `SCREEN_SIZE`, the side of the display (declared in a header that
is not among the sources; `Session.cpp` writes `SCREEN_SIZE - 1` as `4`). -/
def SCREEN_SIZE : Int := 5

/-- Modelled from the spec: `SCREEN_CENTER`, half the display side (`S/2`). -/
def SCREEN_CENTER : Int := 2

/-! ## PlayGameState -/

/-- The fields of `PlayGameState`, with the objects behind `game`, `world` and `player`, and
the log of block lookups. -/
structure PlayGameState where
  game : Game
  world : World
  player : Player
  score : Int
  displayCoins : Bool
  complete : Bool
  partnerComplete : Bool
  partnerScore : Int
  lookups : List Vector2i

namespace PlayGameState

/-- The call `world->getBlock(loc)`: the block, and the state with the lookup logged. -/
def getBlock (s : PlayGameState) (loc : Vector2i) : BlockType × PlayGameState :=
  (s.world.getBlock loc, { s with lookups := s.lookups ++ [loc] })

/-- Source: `PlayGameState::quitToMenu`. -/
def quitToMenu (s : PlayGameState) : PlayGameState :=
  let g := s.game.emit Event.stopAnimation
  { s with game := g.setState GameState.MENU }

/-- Source: `PlayGameState::onButtonAPress`. -/
def onButtonAPress (s : PlayGameState) : PlayGameState :=
  let s := { s with partnerComplete := true }
  let s :=
    if s.game.multiplayer then
      let out := Game.createPacket.writePacketType PacketType.QUIT_WORLD
      { s with game := s.game.sendPacket out }
    else s
  s.quitToMenu

/-- Source: `PlayGameState::onButtonABPress`. -/
def onButtonABPress (s : PlayGameState) : PlayGameState :=
  let s := { s with partnerComplete := true }
  let s := { s with game := s.game.disconnect }
  s.quitToMenu

/-- Source: `PlayGameState::onMessage`. -/
def onMessage (s : PlayGameState) (inp : ByteBuf) : PlayGameState :=
  match inp.readPacketType with
  | PacketType.WORLD_COMPLETE =>
    let s := if s.complete then { s with game := s.game.emit Event.stopAnimation } else s
    let s := { s with partnerScore := inp.readInt }
    { s with partnerComplete := true }
  | PacketType.QUIT_WORLD =>
    let s := { s with partnerComplete := true }
    s.quitToMenu
  | PacketType.DISCONNECT =>
    let s := { s with partnerComplete := true }
    let s := { s with game := s.game.disconnect }
    s.quitToMenu
  | PacketType.OTHER _ => s

/-- Source: `PlayGameState::jump`; `impulse` is the constant of `Player::jump`. -/
def jump (impulse : Int) (s : PlayGameState) : PlayGameState :=
  let r := s.getBlock (s.player.location.addY (-1))
  let below := r.1
  let s := r.2
  if below = BlockType.SOLID then { s with player := s.player.jump impulse } else s

/-- Source: `PlayGameState::onButtonBPress`. -/
def onButtonBPress (impulse : Int) (s : PlayGameState) : PlayGameState :=
  s.jump impulse

/-- Source: `PlayGameState::handleDeath`. -/
def handleDeath (s : PlayGameState) : PlayGameState :=
  if !s.partnerComplete then
    { s with game := s.game.setState (GameState.DEATH s.world.id) }
  else
    let out := (Game.createPacket.writePacketType PacketType.WORLD_COMPLETE).writeInt (-1)
    let s := { s with game := s.game.sendPacket out }
    let s := { s with game := s.game.emit (Event.scroll "LOOSER! SCORE: 0") }
    s.quitToMenu

/-- A packet arriving while the Play state runs: `Game` hands it to the active state, so the
Play state sees it only while it is the active state. -/
def receive (s : PlayGameState) (inp : ByteBuf) : PlayGameState :=
  if s.game.state = GameState.PLAY then s.onMessage inp else s

/-- The wait loop of `handleCompletion` (`while (!partnerComplete)`). `partnerComplete` is
written by `onMessage`, which the transport calls while the loop scrolls and sleeps:
`inbox` lists, per loop iteration, the packets that arrive during it. The result is `none`
when the inbox is exhausted and the partner is still not complete (the loop keeps waiting). -/
def waitForPartner : List (List ByteBuf) → PlayGameState → Option PlayGameState
  | inbox, s =>
    if s.partnerComplete then some s
    else
      match inbox with
      | [] => none
      | arrived :: rest =>
        let s := { s with game := s.game.emit (Event.scroll "WAITING") }
        let s := arrived.foldl receive s
        let s := { s with game := s.game.emit Event.sleep }
        waitForPartner rest s

/-- Source: `PlayGameState::handleCompletion`. -/
def handleCompletion (inbox : List (List ByteBuf)) (s : PlayGameState) : Option PlayGameState :=
  let s := { s with complete := true }
  let waited : Option PlayGameState :=
    if s.game.multiplayer then
      let out := (Game.createPacket.writePacketType PacketType.WORLD_COMPLETE).writeInt s.score
      let s := { s with game := s.game.sendPacket out }
      (waitForPartner inbox s).map fun s =>
        if s.partnerScore < s.score then
          { s with game := s.game.emit (Event.scroll "WINNER! SCORE:") }
        else if s.partnerScore > s.score then
          { s with game := s.game.emit (Event.scroll "LOOSER! SCORE:") }
        else
          { s with game := s.game.emit (Event.scroll "DRAW! SCORE:") }
    else
      some { s with game := s.game.emit (Event.scroll "WINNER! SCORE:") }
  waited.map fun s =>
    let s := { s with game := s.game.emit (Event.scrollNumber s.score) }
    s.quitToMenu

/-- Source: `PlayGameState::tick`, lines 167-203: the movements on the X axis and the world
updates. `accelerometerX` is the tilt reading. -/
def tickHorizontal (accelerometerX : Int) (s : PlayGameState) : PlayGameState :=
  let r := s.getBlock (s.player.location.getRelative (-1) 0)
  let left := r.1
  let s := r.2
  let r := s.getBlock (s.player.location.getRelative 1 0)
  let right := r.1
  let s := r.2
  let s :=
    if accelerometerX < -300 ∧ s.player.location.x > 0 ∧ left ≠ BlockType.SOLID then
      { s with player := { s.player with location := s.player.location.addX (-1) } }
    else s
  let s :=
    if accelerometerX > 300 ∧ s.player.location.x < s.world.maxX - 1
        ∧ right ≠ BlockType.SOLID then
      { s with player := { s.player with location := s.player.location.addX 1 } }
    else s
  let s :=
    if s.player.velocity.x > 0 then
      { s with player := { s.player with location := s.player.location.addX 1 } }
    else if s.player.velocity.x < 0 then
      { s with player := { s.player with location := s.player.location.addX (-1) } }
    else s
  { s with displayCoins := !s.displayCoins }

/-- Source: `PlayGameState::tick`. The result is `none` only when the completion wait does
not end on the given inbox. -/
def tick (inbox : List (List ByteBuf)) (accelerometerX : Int) (s : PlayGameState) :
    Option PlayGameState :=
  let r := s.getBlock s.player.location
  let center := r.1
  let s := r.2
  if center = BlockType.FLAG then
    handleCompletion inbox s
  else
    let s :=
      if center = BlockType.COIN then
        { s with world := s.world.setBlock s.player.location BlockType.AIR,
                 score := s.score + 1 }
      else s
    let r := s.getBlock (s.player.location.getRelative 0 1)
    let above := r.1
    let s := r.2
    let r := s.getBlock (s.player.location.getRelative 0 (-1))
    let below := r.1
    let s := r.2
    let s :=
      if above = BlockType.SOLID ∧ s.player.velocity.y > 0 then
        { s with player := { s.player with velocity := s.player.velocity.setY 0 } }
      else s
    let s :=
      if below ≠ BlockType.SOLID then
        { s with player := { s.player with velocity := s.player.velocity.addY (-1) } }
      else s
    if s.player.velocity.y > 0 then
      let s := { s with player := { s.player with location := s.player.location.addY 1 } }
      some (tickHorizontal accelerometerX s)
    else if s.player.velocity.y < 0 then
      if below = BlockType.SOLID then
        let s := { s with player := { s.player with velocity := s.player.velocity.setY 0 } }
        some (tickHorizontal accelerometerX s)
      else
        let s := { s with player := { s.player with location := s.player.location.addY (-1) } }
        if s.player.location.y < 0 then
          some (handleDeath s)
        else
          some (tickHorizontal accelerometerX s)
    else
      some (tickHorizontal accelerometerX s)

/-- Source: `PlayGameState::renderBlock`. -/
def renderBlock (offsetX offsetY x y : Int) (s : PlayGameState) : PlayGameState :=
  let r := s.getBlock (s.player.location.getRelative (x - offsetX) (y - offsetY))
  let blockType := r.1
  let s := r.2
  match blockType with
  | BlockType.AIR => s
  | BlockType.SOLID =>
    { s with game := s.game.setPixelValue (toUInt16 x) (toUInt16 ((SCREEN_SIZE - 1) - y)) 16 }
  | BlockType.FLAG =>
    { s with game := s.game.setPixelValue (toUInt16 x) (toUInt16 ((SCREEN_SIZE - 1) - y)) 48 }
  | BlockType.COIN =>
    if s.displayCoins then
      { s with game := s.game.setPixelValue (toUInt16 x) (toUInt16 ((SCREEN_SIZE - 1) - y)) 96 }
    else s

/-- Source: `PlayGameState::render`, lines 261-279: the clamped offsets `(offsetX, offsetY)`
for a player at `location` in `world`. -/
def renderOffset (world : World) (location : Vector2i) : Int × Int :=
  let offsetX := SCREEN_CENTER
  let offsetY := SCREEN_CENTER
  let offsetY :=
    if location.y ≤ SCREEN_CENTER then offsetY - (SCREEN_CENTER - location.y) else offsetY
  let offsetY :=
    if location.y ≥ world.maxY - SCREEN_CENTER then
      offsetY + (SCREEN_CENTER - ((world.maxY - 1) - location.y))
    else offsetY
  let offsetX :=
    if location.x ≤ SCREEN_CENTER then offsetX - (SCREEN_CENTER - location.x) else offsetX
  let offsetX :=
    if location.x ≥ world.maxX - SCREEN_CENTER then
      offsetX + (SCREEN_CENTER - ((world.maxX - 1) - location.x))
    else offsetX
  (offsetX, offsetY)

/-- The screen coordinates `0, 1, ..., SCREEN_SIZE - 1` a `for` loop of `render` visits. -/
def screenRange : List Int :=
  (List.range SCREEN_SIZE.toNat).map Int.ofNat

/-- Source: `PlayGameState::render`. -/
def render (s : PlayGameState) : PlayGameState :=
  let location := s.player.location
  let off := renderOffset s.world location
  let offsetX := off.1
  let offsetY := off.2
  let s := { s with game :=
    s.game.setPixelValue (toUInt16 offsetX) (toUInt16 ((SCREEN_SIZE - 1) - offsetY)) 255 }
  screenRange.foldl
    (fun s x => screenRange.foldl (fun s y => renderBlock offsetX offsetY x y s) s) s

end PlayGameState

/-! ## DeathGameState -/

/-- The fields of `DeathGameState`, with the object behind `game`. -/
structure DeathGameState where
  game : Game
  worldId : Int
  counter : Int

namespace DeathGameState

/-- Source: `DeathGameState::quitToMenu`. -/
def quitToMenu (s : DeathGameState) : DeathGameState :=
  let g := s.game.emit Event.stopAnimation
  { s with game := g.setState GameState.MENU }

/-- Source: `DeathGameState::onButtonAPress`. -/
def onButtonAPress (s : DeathGameState) : DeathGameState :=
  if s.game.multiplayer then s
  else
    let g := s.game.emit Event.stopAnimation
    { s with game := g.setState GameState.MENU }

/-- Source: `DeathGameState::onButtonBPress`. -/
def onButtonBPress (s : DeathGameState) : DeathGameState :=
  let s :=
    if s.game.multiplayer then
      let out := Game.createPacket.writePacketType PacketType.QUIT_WORLD
      { s with game := s.game.sendPacket out }
    else s
  s.quitToMenu

/-- Source: `DeathGameState::onButtonABPress`. -/
def onButtonABPress (s : DeathGameState) : DeathGameState :=
  let s := { s with game := s.game.disconnect }
  s.quitToMenu

/-- Source: `DeathGameState::onMessage`. -/
def onMessage (s : DeathGameState) (inp : ByteBuf) : DeathGameState :=
  match inp.readPacketType with
  | PacketType.WORLD_COMPLETE =>
    let out := (Game.createPacket.writePacketType PacketType.WORLD_COMPLETE).writeInt (-1)
    let s := { s with game := s.game.sendPacket out }
    let s := s.quitToMenu
    { s with game := s.game.emit (Event.scrollAsync "LOOSER! SCORE: 0") }
  | PacketType.QUIT_WORLD => s.quitToMenu
  | PacketType.DISCONNECT =>
    let s := { s with game := s.game.disconnect }
    s.quitToMenu
  | PacketType.OTHER _ => s

end DeathGameState

/-! ## Example sessions -/

/-- A game with nothing logged and a dark screen, the Play state active. -/
def exampleGame (multiplayer : Bool) : Game :=
  { multiplayer := multiplayer, state := GameState.PLAY, events := [], screen := fun _ _ => 0 }

/-- An example world, 8 wide and 6 high: a solid floor in row 0, a coin at (1,1), a flag at
(6,1), air everywhere else (also outside the grid). -/
def floorWorld : World :=
  { id := 7, maxX := 8, maxY := 6,
    blocks := fun x y =>
      if y = 0 ∧ 0 ≤ x ∧ x < 8 then BlockType.SOLID
      else if x = 1 ∧ y = 1 then BlockType.COIN
      else if x = 6 ∧ y = 1 then BlockType.FLAG
      else BlockType.AIR }

/-- An example world, 5 wide and 5 high, with no solid tile at all. -/
def airWorld : World :=
  { id := 3, maxX := 5, maxY := 5, blocks := fun _ _ => BlockType.AIR }

/-- An example session in `world`: the player at rest at `location`, nothing scored, nothing
received from the partner, no lookup made yet. -/
def exampleSession (multiplayer : Bool) (world : World) (location : Vector2i) : PlayGameState :=
  { game := exampleGame multiplayer, world := world,
    player := { location := location, velocity := { x := 0, y := 0 } },
    score := 0, displayCoins := false, complete := false, partnerComplete := false,
    partnerScore := 0, lookups := [] }

/-- An example multiplayer session on the flag of `floorWorld` with the given scores, whose
partner has already completed. -/
def finishedRace (score partnerScore : Int) : PlayGameState :=
  { exampleSession true floorWorld { x := 6, y := 1 } with
    score := score, partnerScore := partnerScore, partnerComplete := true }

/-- The Play states a running session reaches from `s0`: by `tick` (any packets arriving
during a completion wait, any tilt reading) and by `jump` (button B, with the constant
`impulse` of `Player::jump`), each applied while Play is the active state. -/
inductive PlayGameState.Reachable (impulse : Int) (s0 : PlayGameState) : PlayGameState → Prop where
  | start : PlayGameState.Reachable impulse s0 s0
  | tick {s s' : PlayGameState} (inbox : List (List ByteBuf)) (accelerometerX : Int) :
      PlayGameState.Reachable impulse s0 s → s.game.state = GameState.PLAY →
      PlayGameState.tick inbox accelerometerX s = some s' →
      PlayGameState.Reachable impulse s0 s'
  | jump {s : PlayGameState} :
      PlayGameState.Reachable impulse s0 s → s.game.state = GameState.PLAY →
      PlayGameState.Reachable impulse s0 (s.jump impulse)

/-- An example Death state of world 7 in a multiplayer game, nothing logged yet. -/
def exampleDeath : DeathGameState :=
  { game := { exampleGame true with state := GameState.DEATH 7 }, worldId := 7, counter := 0 }

/-! ## Session -/

/-- The fields of `Session` (`source/Session.cpp`, the single-player form of the Play state),
with the objects behind `game`, `world` and `player`, and the log of block lookups. The
`Menu` and `GameOver` states it switches to are recorded as `GameState.MENU` and
`GameState.DEATH`. -/
structure Session where
  game : Game
  world : World
  player : Player
  score : Int
  displayCoins : Bool
  lookups : List Vector2i

namespace Session

/-- The call `world->getBlock(loc)`: the block, and the state with the lookup logged. -/
def getBlock (s : Session) (loc : Vector2i) : BlockType × Session :=
  (s.world.getBlock loc, { s with lookups := s.lookups ++ [loc] })

/-- Source: `Session::onButtonAPress`. -/
def onButtonAPress (s : Session) : Session :=
  let g := s.game.emit Event.stopAnimation
  { s with game := g.setState GameState.MENU }

/-- Source: `Session::jump`; `impulse` is the constant of `Player::jump`. -/
def jump (impulse : Int) (s : Session) : Session :=
  let r := s.getBlock (s.player.location.addY (-1))
  let below := r.1
  let s := r.2
  if below = BlockType.SOLID then { s with player := s.player.jump impulse } else s

/-- Source: `Session::onButtonBPress`. -/
def onButtonBPress (impulse : Int) (s : Session) : Session :=
  s.jump impulse

/-- Source: `Session::tick`, lines 92-110: the movements on the X axis and the coin blink.
`accelerometerX` is the tilt reading. -/
def tickHorizontal (accelerometerX : Int) (s : Session) : Session :=
  let r := s.getBlock (s.player.location.getRelative (-1) 0)
  let left := r.1
  let s := r.2
  let r := s.getBlock (s.player.location.getRelative 1 0)
  let right := r.1
  let s := r.2
  let s :=
    if accelerometerX < -300 ∧ s.player.location.x > 0 ∧ left ≠ BlockType.SOLID then
      { s with player := { s.player with location := s.player.location.addX (-1) } }
    else s
  let s :=
    if accelerometerX > 300 ∧ s.player.location.x < s.world.maxX - 2
        ∧ right ≠ BlockType.SOLID then
      { s with player := { s.player with location := s.player.location.addX 1 } }
    else s
  let s :=
    if s.player.velocity.x > 0 then
      { s with player := { s.player with location := s.player.location.addX 1 } }
    else if s.player.velocity.x < 0 then
      { s with player := { s.player with location := s.player.location.addX (-1) } }
    else s
  { s with displayCoins := !s.displayCoins }

/-- Source: `Session::tick`. -/
def tick (accelerometerX : Int) (s : Session) : Session :=
  let r := s.getBlock s.player.location
  let center := r.1
  let s := r.2
  let r := s.getBlock (s.player.location.getRelative 0 1)
  let above := r.1
  let s := r.2
  let r := s.getBlock (s.player.location.getRelative 0 (-1))
  let below := r.1
  let s := r.2
  if center = BlockType.FLAG then
    let s := { s with game := s.game.emit (Event.scroll "WINNER! SCORE:") }
    let s := { s with game := s.game.emit (Event.scrollNumber s.score) }
    { s with game := s.game.setState GameState.MENU }
  else
    let s :=
      if center = BlockType.COIN then
        { s with world := s.world.setBlock s.player.location BlockType.AIR,
                 score := s.score + 1 }
      else s
    let s :=
      if above = BlockType.SOLID ∧ s.player.velocity.y > 0 then
        { s with player := { s.player with velocity := s.player.velocity.setY 0 } }
      else s
    let s :=
      if below ≠ BlockType.SOLID then
        { s with player := { s.player with velocity := s.player.velocity.addY (-1) } }
      else s
    if s.player.velocity.y > 0 then
      let s := { s with player := { s.player with location := s.player.location.addY 1 } }
      tickHorizontal accelerometerX s
    else if s.player.velocity.y < 0 then
      if below = BlockType.SOLID then
        let s := { s with player := { s.player with velocity := s.player.velocity.setY 0 } }
        tickHorizontal accelerometerX s
      else
        let s := { s with player := { s.player with location := s.player.location.addY (-1) } }
        if s.player.location.y < 0 then
          { s with game := s.game.setState (GameState.DEATH s.world.id) }
        else
          tickHorizontal accelerometerX s
    else
      tickHorizontal accelerometerX s

end Session

/-- An example `Session` in `world`: the player at rest at `location`, nothing scored, no
lookup made yet. -/
def exampleRun (world : World) (location : Vector2i) : Session :=
  { game := exampleGame false, world := world,
    player := { location := location, velocity := { x := 0, y := 0 } },
    score := 0, displayCoins := false, lookups := [] }

/-- Source: the `switch` of `PlayGameState::renderBlock`, as the brightness a pixel has after
the call when it shows a block of type `blockType` and had the value `old` before. -/
def blockBrightness (blockType : BlockType) (displayCoins : Bool) (old : Nat) : Nat :=
  match blockType with
  | BlockType.AIR => old
  | BlockType.SOLID => 16
  | BlockType.FLAG => 48
  | BlockType.COIN => if displayCoins then 96 else old

end platformer

namespace platformer

open PlayGameState

/-! ## Jump -/

/-- C5: `PlayGameState::jump`, and with it the B-button handler, changes the player only
through `Player::jump`, and only when the tile directly below is `SOLID`; otherwise velocity
and position are what they were. The position is unchanged in both cases, and nothing but
the player (and the lookup log) is touched. -/
theorem jump_only_when_below_solid (impulse : Int) (s : PlayGameState) :
    onButtonBPress impulse s = jump impulse s
    ∧ (jump impulse s).player
        = (if s.world.getBlock (s.player.location.addY (-1)) = BlockType.SOLID
            then s.player.jump impulse else s.player)
    ∧ (jump impulse s).player.location = s.player.location
    ∧ (jump impulse s).world = s.world
    ∧ (jump impulse s).game = s.game
    ∧ (jump impulse s).score = s.score := by
  refine ⟨rfl, ?_, ?_, ?_, ?_, ?_⟩ <;>
    (unfold jump; simp only [PlayGameState.getBlock]; split_ifs <;> simp [Player.jump])

/-! ## Death and peer messages -/

/-- C8: `PlayGameState::handleDeath` branches on `partnerComplete` alone. When it is false
the only collaborator call is the switch to a Death state that carries the world's id, so
no packet is sent. When it is true the calls are: send `WORLD_COMPLETE` with score -1,
scroll the lose banner, stop the animation, switch to Menu; that is the one packet sent. -/
theorem handleDeath_by_partnerComplete (s : PlayGameState) :
    (handleDeath s).game.events
        = s.game.events ++
          (if s.partnerComplete then
            [Event.sendPacket { packetType := PacketType.WORLD_COMPLETE, ints := [-1] },
             Event.scroll "LOOSER! SCORE: 0", Event.stopAnimation,
             Event.setState GameState.MENU]
           else [Event.setState (GameState.DEATH s.world.id)])
    ∧ (handleDeath s).game.sent
        = s.game.sent ++
          (if s.partnerComplete then
            [{ packetType := PacketType.WORLD_COMPLETE, ints := [-1] }] else [])
    ∧ (handleDeath s).game.state
        = (if s.partnerComplete then GameState.MENU else GameState.DEATH s.world.id) := by
  cases h : s.partnerComplete <;>
    simp [handleDeath, h, PlayGameState.quitToMenu, Game.setState, Game.emit, Game.sendPacket,
      Game.sent, Game.createPacket, ByteBuf.writePacketType, ByteBuf.writeInt]

/-- C9: `PlayGameState::onMessage`. A `WORLD_COMPLETE` packet carrying `n` sets
`partnerScore` to `n` and `partnerComplete` to true, leaves the active state as it is and
sends nothing. `QUIT_WORLD` and `DISCONNECT` set `partnerComplete` and make Menu the active
state. Hence every packet of a recognised type leaves `partnerComplete` true. -/
theorem onMessage_sets_partnerComplete (s : PlayGameState) (n : Int) (ints : List Int) :
    ((s.onMessage { packetType := PacketType.WORLD_COMPLETE, ints := n :: ints }).partnerScore = n
      ∧ (s.onMessage { packetType := PacketType.WORLD_COMPLETE, ints := n :: ints }).partnerComplete
          = true
      ∧ (s.onMessage { packetType := PacketType.WORLD_COMPLETE, ints := n :: ints }).game.state
          = s.game.state
      ∧ (s.onMessage { packetType := PacketType.WORLD_COMPLETE, ints := n :: ints }).game.sent
          = s.game.sent)
    ∧ ((s.onMessage { packetType := PacketType.QUIT_WORLD, ints := ints }).partnerComplete = true
      ∧ (s.onMessage { packetType := PacketType.QUIT_WORLD, ints := ints }).game.state
          = GameState.MENU)
    ∧ ((s.onMessage { packetType := PacketType.DISCONNECT, ints := ints }).partnerComplete = true
      ∧ (s.onMessage { packetType := PacketType.DISCONNECT, ints := ints }).game.state
          = GameState.MENU)
    ∧ (∀ inp : ByteBuf, (∀ tag, inp.packetType ≠ PacketType.OTHER tag) →
        (s.onMessage inp).partnerComplete = true) := by
  refine ⟨?_, ?_, ?_, ?_⟩
  · cases h : s.complete <;>
      simp [PlayGameState.onMessage, ByteBuf.readPacketType, ByteBuf.readInt, h, Game.emit,
        Game.sent]
  · simp [PlayGameState.onMessage, ByteBuf.readPacketType, PlayGameState.quitToMenu,
      Game.setState]
  · simp [PlayGameState.onMessage, ByteBuf.readPacketType, PlayGameState.quitToMenu,
      Game.setState]
  · intro inp hinp
    rcases inp with ⟨t, l⟩
    cases t with
    | OTHER tag => exact absurd rfl (hinp tag)
    | WORLD_COMPLETE => simp [PlayGameState.onMessage, ByteBuf.readPacketType]
    | QUIT_WORLD =>
      simp [PlayGameState.onMessage, ByteBuf.readPacketType, PlayGameState.quitToMenu]
    | DISCONNECT =>
      simp [PlayGameState.onMessage, ByteBuf.readPacketType, PlayGameState.quitToMenu]

/-- C10: on `QUIT_WORLD` and on `DISCONNECT` the Death state and the Play state do the same
to the game they share: the calls are stop-animation then switch to Menu, preceded for
`DISCONNECT` by the disconnect of the transport; the resulting `Game` is the same in both
states, Menu is the active state, and no packet is sent. -/
theorem onMessage_quit_uniform (p : PlayGameState) (worldId counter : Int) (ints : List Int) :
    ((DeathGameState.onMessage { game := p.game, worldId := worldId, counter := counter }
          { packetType := PacketType.QUIT_WORLD, ints := ints }).game
        = (p.onMessage { packetType := PacketType.QUIT_WORLD, ints := ints }).game
      ∧ (p.onMessage { packetType := PacketType.QUIT_WORLD, ints := ints }).game.events
        = p.game.events ++ [Event.stopAnimation, Event.setState GameState.MENU]
      ∧ (p.onMessage { packetType := PacketType.QUIT_WORLD, ints := ints }).game.state
        = GameState.MENU
      ∧ (p.onMessage { packetType := PacketType.QUIT_WORLD, ints := ints }).game.sent
        = p.game.sent)
    ∧ ((DeathGameState.onMessage { game := p.game, worldId := worldId, counter := counter }
          { packetType := PacketType.DISCONNECT, ints := ints }).game
        = (p.onMessage { packetType := PacketType.DISCONNECT, ints := ints }).game
      ∧ (p.onMessage { packetType := PacketType.DISCONNECT, ints := ints }).game.events
        = p.game.events
            ++ [Event.disconnect, Event.stopAnimation, Event.setState GameState.MENU]
      ∧ (p.onMessage { packetType := PacketType.DISCONNECT, ints := ints }).game.state
        = GameState.MENU
      ∧ (p.onMessage { packetType := PacketType.DISCONNECT, ints := ints }).game.sent
        = p.game.sent) := by
  refine ⟨?_, ?_⟩ <;>
    simp [PlayGameState.onMessage, DeathGameState.onMessage, ByteBuf.readPacketType,
      PlayGameState.quitToMenu, DeathGameState.quitToMenu, Game.setState, Game.emit,
      Game.disconnect, Game.sent]

end platformer

namespace platformer

open PlayGameState

/-! ## Tick -/

theorem tickHorizontal_location_y (ax : Int) (s : PlayGameState) :
    (tickHorizontal ax s).player.location.y = s.player.location.y := by
  unfold tickHorizontal
  simp only [PlayGameState.getBlock]
  split_ifs <;> simp [Vector2i.addX]

theorem tickHorizontal_velocity (ax : Int) (s : PlayGameState) :
    (tickHorizontal ax s).player.velocity = s.player.velocity := by
  unfold tickHorizontal
  simp only [PlayGameState.getBlock]
  split_ifs <;> simp [Vector2i.addX]

theorem tickHorizontal_score (ax : Int) (s : PlayGameState) :
    (tickHorizontal ax s).score = s.score := by
  unfold tickHorizontal
  simp only [PlayGameState.getBlock]
  split_ifs <;> simp [Vector2i.addX]

theorem tickHorizontal_world (ax : Int) (s : PlayGameState) :
    (tickHorizontal ax s).world = s.world := by
  unfold tickHorizontal
  simp only [PlayGameState.getBlock]
  split_ifs <;> simp [Vector2i.addX]

theorem tickHorizontal_game (ax : Int) (s : PlayGameState) :
    (tickHorizontal ax s).game = s.game := by
  unfold tickHorizontal
  simp only [PlayGameState.getBlock]
  split_ifs <;> simp [Vector2i.addX]

theorem handleDeath_player (s : PlayGameState) : (handleDeath s).player = s.player := by
  unfold handleDeath; split_ifs <;> simp [PlayGameState.quitToMenu]

theorem handleDeath_score (s : PlayGameState) : (handleDeath s).score = s.score := by
  unfold handleDeath; split_ifs <;> simp [PlayGameState.quitToMenu]

theorem handleDeath_world (s : PlayGameState) : (handleDeath s).world = s.world := by
  unfold handleDeath; split_ifs <;> simp [PlayGameState.quitToMenu]

theorem handleDeath_lookups (s : PlayGameState) : (handleDeath s).lookups = s.lookups := by
  unfold handleDeath; split_ifs <;> simp [PlayGameState.quitToMenu]

theorem handleDeath_displayCoins (s : PlayGameState) :
    (handleDeath s).displayCoins = s.displayCoins := by
  unfold handleDeath; split_ifs <;> simp [PlayGameState.quitToMenu]

theorem handleDeath_state_ne_play (s : PlayGameState) :
    (handleDeath s).game.state ≠ GameState.PLAY := by
  unfold handleDeath; split_ifs <;> simp [PlayGameState.quitToMenu, Game.setState]

/-- C2: a player that is not on a flag, stands on a `SOLID` tile and has vertical velocity 0
keeps its y coordinate and its vertical velocity 0 through one tick, for every tilt reading
(so in particular when the tilt is within the dead zone `[-300, 300]`), and the tick
returns. -/
theorem tick_standing_keeps_y (inbox : List (List ByteBuf)) (accelerometerX : Int)
    (s : PlayGameState)
    (hcenter : s.world.getBlock s.player.location ≠ BlockType.FLAG)
    (hbelow : s.world.getBlock (s.player.location.getRelative 0 (-1)) = BlockType.SOLID)
    (hvel : s.player.velocity.y = 0) :
    ∃ s', tick inbox accelerometerX s = some s'
      ∧ s'.player.location.y = s.player.location.y
      ∧ s'.player.velocity.y = 0 := by
  have hb : s.world.blocks s.player.location.x (s.player.location.y + -1) = BlockType.SOLID := by
    simpa [World.getBlock, Vector2i.getRelative] using hbelow
  unfold tick
  simp only [PlayGameState.getBlock]
  rw [if_neg hcenter]
  simp only [World.getBlock]
  by_cases hcoin : s.world.blocks s.player.location.x s.player.location.y = BlockType.COIN <;>
    simp [hcoin, World.getBlock, World.setBlock, Vector2i.getRelative, hb, hvel,
      tickHorizontal_location_y, tickHorizontal_velocity]

/-- Witness for C2: on the floor of `floorWorld`, at rest on the coin tile (1,1), no tilt. -/
theorem tick_standing_keeps_y_witness :
    ∃ s', tick [] 0 (exampleSession false floorWorld { x := 1, y := 1 }) = some s'
      ∧ s'.player.location.y = (exampleSession false floorWorld { x := 1, y := 1 }).player.location.y
      ∧ s'.player.velocity.y = 0 :=
  tick_standing_keeps_y [] 0 (exampleSession false floorWorld { x := 1, y := 1 })
    (by decide) (by decide) (by decide)

/-- C3: a tick that starts with the player on a `COIN` tile returns with that tile set to
`AIR` and the score increased by exactly 1; a tick that starts with the player on an `AIR`
tile (such as a second tick on the tile just cleared) returns with the score unchanged. -/
theorem tick_coin_scores_once (inbox : List (List ByteBuf)) (accelerometerX : Int)
    (s : PlayGameState) :
    (s.world.getBlock s.player.location = BlockType.COIN →
      ∃ s', tick inbox accelerometerX s = some s'
        ∧ s'.world.getBlock s.player.location = BlockType.AIR
        ∧ s'.score = s.score + 1)
    ∧ (s.world.getBlock s.player.location = BlockType.AIR →
      ∃ s', tick inbox accelerometerX s = some s' ∧ s'.score = s.score) := by
  constructor
  · intro hcoin
    have hc : s.world.blocks s.player.location.x s.player.location.y = BlockType.COIN := by
      simpa [World.getBlock] using hcoin
    unfold tick
    simp only [PlayGameState.getBlock, World.getBlock]
    simp only [hc, reduceCtorEq, if_true, if_false]
    split_ifs <;>
      simp [tickHorizontal_score, tickHorizontal_world, handleDeath_score, handleDeath_world,
        World.getBlock, World.setBlock]
  · intro hair
    have hc : s.world.blocks s.player.location.x s.player.location.y = BlockType.AIR := by
      simpa [World.getBlock] using hair
    unfold tick
    simp only [PlayGameState.getBlock, World.getBlock]
    simp only [hc, reduceCtorEq, if_true, if_false]
    split_ifs <;> simp [tickHorizontal_score, handleDeath_score]

/-- Witness for C3: the coin of `floorWorld` at (1,1), and the air tile (1,1) of `airWorld`. -/
theorem tick_coin_scores_once_witness :
    (∃ s', tick [] 0 (exampleSession false floorWorld { x := 1, y := 1 }) = some s'
        ∧ s'.world.getBlock { x := 1, y := 1 } = BlockType.AIR
        ∧ s'.score = 0 + 1)
    ∧ (∃ s', tick [] 0 (exampleSession false airWorld { x := 1, y := 1 }) = some s'
        ∧ s'.score = 0) :=
  ⟨(tick_coin_scores_once [] 0 (exampleSession false floorWorld { x := 1, y := 1 })).1
      (by decide),
   (tick_coin_scores_once [] 0 (exampleSession false airWorld { x := 1, y := 1 })).2
      (by decide)⟩

/-- C4: when the vertical step takes the player below row 0 (the player is not on a flag, is
in row 0 or lower, the tile below is not `SOLID`, and the vertical velocity after the
head-bump clamp and gravity is negative), the tick ends in `handleDeath`, called with the
player one row down in the same column: the x coordinate is what it was, for every tilt
reading and every horizontal velocity, the coin-blink flag is not toggled, and Play is no
longer the active state. -/
theorem tick_fall_death (inbox : List (List ByteBuf)) (accelerometerX : Int)
    (s : PlayGameState)
    (hcenter : s.world.getBlock s.player.location ≠ BlockType.FLAG)
    (hy : s.player.location.y ≤ 0)
    (hbelow : s.world.getBlock (s.player.location.getRelative 0 (-1)) ≠ BlockType.SOLID)
    (hvel : (if s.world.getBlock (s.player.location.getRelative 0 1) = BlockType.SOLID
              ∧ s.player.velocity.y > 0 then 0 else s.player.velocity.y) - 1 < 0) :
    ∃ m, tick inbox accelerometerX s = some (handleDeath m)
      ∧ m.player.location = { x := s.player.location.x, y := s.player.location.y - 1 }
      ∧ (handleDeath m).player.location.x = s.player.location.x
      ∧ (handleDeath m).displayCoins = s.displayCoins
      ∧ (handleDeath m).game.state ≠ GameState.PLAY := by
  have hb : s.world.blocks s.player.location.x (s.player.location.y + -1) ≠ BlockType.SOLID := by
    simpa [World.getBlock, Vector2i.getRelative] using hbelow
  have hcf : s.world.blocks s.player.location.x s.player.location.y ≠ BlockType.FLAG := by
    simpa [World.getBlock] using hcenter
  simp only [World.getBlock, Vector2i.getRelative, add_zero] at hvel
  unfold tick
  simp only [PlayGameState.getBlock, World.getBlock]
  rw [if_neg hcf]
  by_cases hcoin : s.world.blocks s.player.location.x s.player.location.y = BlockType.COIN <;>
  by_cases habove : s.world.blocks s.player.location.x (s.player.location.y + 1)
        = BlockType.SOLID ∧ s.player.velocity.y > 0
  all_goals
    first
      | rw [if_pos habove] at hvel
      | rw [if_neg habove] at hvel
    simp [hcoin, World.setBlock, Vector2i.getRelative, Vector2i.addY, Vector2i.setY, hb, habove,
      handleDeath_player, handleDeath_displayCoins, handleDeath_state_ne_play]
    split_ifs <;>
      first
        | omega
        | exact ⟨_, rfl, by simp [sub_eq_add_neg], rfl, rfl⟩

/-- Witness for C4: row 0 of `airWorld`, tilted hard to the right. -/
theorem tick_fall_death_witness :
    ∃ m, tick [] 500 (exampleSession true airWorld { x := 1, y := 0 }) = some (handleDeath m)
      ∧ m.player.location = { x := 1, y := 0 - 1 }
      ∧ (handleDeath m).player.location.x = 1
      ∧ (handleDeath m).displayCoins = false
      ∧ (handleDeath m).game.state ≠ GameState.PLAY :=
  tick_fall_death [] 500 (exampleSession true airWorld { x := 1, y := 0 })
    (by decide) (by decide) (by decide) (by decide)

/-! ## Completion -/

theorem waitForPartner_of_complete (inbox : List (List ByteBuf)) (s : PlayGameState)
    (h : s.partnerComplete = true) : waitForPartner inbox s = some s := by
  unfold waitForPartner
  simp [h]

theorem waitForPartner_complete (inbox : List (List ByteBuf)) :
    ∀ (s w : PlayGameState), waitForPartner inbox s = some w → w.partnerComplete = true := by
  induction inbox with
  | nil =>
    intro s w h
    unfold waitForPartner at h
    by_cases hp : s.partnerComplete = true
    · simp [hp] at h; rw [← h]; exact hp
    · simp [hp] at h
  | cons arrived rest ih =>
    intro s w h
    unfold waitForPartner at h
    by_cases hp : s.partnerComplete = true
    · simp [hp] at h; rw [← h]; exact hp
    · simp [hp] at h
      exact ih _ _ h

/-- C7: in a multiplayer `handleCompletion` the banner is chosen by comparing the scores once
`partnerComplete` is true. If it is true on entry the call returns at once, having sent
`WORLD_COMPLETE` with the score and scrolled one banner, which is the win banner iff
`score > partnerScore`, the lose banner iff `score < partnerScore` and the draw banner iff
they are equal. Whenever the call returns (after any wait), `partnerComplete` is true and
the banner scrolled just before the score is chosen by the same comparison of the scores
at that moment. -/
theorem handleCompletion_compares_scores (inbox : List (List ByteBuf)) (s : PlayGameState)
    (hmulti : s.game.multiplayer = true) :
    (s.partnerComplete = true →
      ∃ msg s', handleCompletion inbox s = some s'
        ∧ s'.game.events = s.game.events ++
            [Event.sendPacket { packetType := PacketType.WORLD_COMPLETE, ints := [s.score] },
             Event.scroll msg, Event.scrollNumber s.score, Event.stopAnimation,
             Event.setState GameState.MENU]
        ∧ (msg = "WINNER! SCORE:" ↔ s.score > s.partnerScore)
        ∧ (msg = "LOOSER! SCORE:" ↔ s.score < s.partnerScore)
        ∧ (msg = "DRAW! SCORE:" ↔ s.score = s.partnerScore))
    ∧ (∀ s', handleCompletion inbox s = some s' →
        s'.partnerComplete = true
        ∧ ∃ before msg, s'.game.events = before ++
            [Event.scroll msg, Event.scrollNumber s'.score, Event.stopAnimation,
             Event.setState GameState.MENU]
          ∧ (msg = "WINNER! SCORE:" ↔ s'.score > s'.partnerScore)
          ∧ (msg = "LOOSER! SCORE:" ↔ s'.score < s'.partnerScore)
          ∧ (msg = "DRAW! SCORE:" ↔ s'.score = s'.partnerScore)) := by
  constructor
  · intro hp
    unfold handleCompletion
    simp only [hmulti, if_true]
    rw [waitForPartner_of_complete _ _ (by simpa using hp)]
    simp only [Option.map_some']
    rcases lt_trichotomy s.partnerScore s.score with hlt | heq | hgt
    · refine ⟨"WINNER! SCORE:", _, rfl, ?_, ?_, ?_, ?_⟩
      · simp [hlt, PlayGameState.quitToMenu, Game.setState, Game.emit, Game.sendPacket,
          Game.createPacket, ByteBuf.writePacketType, ByteBuf.writeInt]
      · simp; exact hlt
      · simp; omega
      · simp; omega
    · refine ⟨"DRAW! SCORE:", _, rfl, ?_, ?_, ?_, ?_⟩
      · simp [heq, PlayGameState.quitToMenu, Game.setState, Game.emit, Game.sendPacket,
          Game.createPacket, ByteBuf.writePacketType, ByteBuf.writeInt]
      · simp; omega
      · simp; omega
      · simp; omega
    · refine ⟨"LOOSER! SCORE:", _, rfl, ?_, ?_, ?_, ?_⟩
      · simp [hgt, not_lt_of_gt hgt, PlayGameState.quitToMenu, Game.setState, Game.emit,
          Game.sendPacket, Game.createPacket, ByteBuf.writePacketType, ByteBuf.writeInt]
      · simp; omega
      · simp; exact hgt
      · simp; omega
  · intro s' h
    unfold handleCompletion at h
    simp only [hmulti, if_true] at h
    simp only [Option.map_eq_some'] at h
    obtain ⟨a, ⟨w, hw, ha⟩, hs⟩ := h
    have hwc := waitForPartner_complete _ _ _ hw
    subst ha
    subst hs
    rcases lt_trichotomy w.partnerScore w.score with hlt | heq | hgt
    · refine ⟨by simp [hlt, PlayGameState.quitToMenu, hwc], w.game.events, "WINNER! SCORE:",
        ?_, ?_, ?_, ?_⟩
      · simp [hlt, PlayGameState.quitToMenu, Game.setState, Game.emit]
      · simp [hlt, PlayGameState.quitToMenu]
      · simp [hlt, PlayGameState.quitToMenu]; omega
      · simp [hlt, PlayGameState.quitToMenu]; omega
    · refine ⟨by simp [heq, PlayGameState.quitToMenu, hwc], w.game.events, "DRAW! SCORE:",
        ?_, ?_, ?_, ?_⟩
      · simp [heq, PlayGameState.quitToMenu, Game.setState, Game.emit]
      · simp [heq, PlayGameState.quitToMenu]
      · simp [heq, PlayGameState.quitToMenu]
      · simp [heq, PlayGameState.quitToMenu]
    · have hnlt : ¬ w.partnerScore < w.score := not_lt_of_gt hgt
      refine ⟨by simp [hgt, hnlt, PlayGameState.quitToMenu, hwc], w.game.events, "LOOSER! SCORE:",
        ?_, ?_, ?_, ?_⟩
      · simp [hgt, hnlt, PlayGameState.quitToMenu, Game.setState, Game.emit]
      · simp [hgt, hnlt, PlayGameState.quitToMenu]
      · simp [hgt, hnlt, PlayGameState.quitToMenu]
      · simp [hgt, hnlt, PlayGameState.quitToMenu]; omega

/-- Witness for C7: the four outcomes (5,3) win, (3,5) lose, (4,4) draw, (5,-1) win. -/
theorem handleCompletion_compares_scores_witness :
    (∃ s', handleCompletion [] (finishedRace 5 3) = some s'
        ∧ s'.game.events =
          [Event.sendPacket { packetType := PacketType.WORLD_COMPLETE, ints := [5] },
           Event.scroll "WINNER! SCORE:", Event.scrollNumber 5, Event.stopAnimation,
           Event.setState GameState.MENU])
    ∧ (∃ s', handleCompletion [] (finishedRace 3 5) = some s'
        ∧ s'.game.events =
          [Event.sendPacket { packetType := PacketType.WORLD_COMPLETE, ints := [3] },
           Event.scroll "LOOSER! SCORE:", Event.scrollNumber 3, Event.stopAnimation,
           Event.setState GameState.MENU])
    ∧ (∃ s', handleCompletion [] (finishedRace 4 4) = some s'
        ∧ s'.game.events =
          [Event.sendPacket { packetType := PacketType.WORLD_COMPLETE, ints := [4] },
           Event.scroll "DRAW! SCORE:", Event.scrollNumber 4, Event.stopAnimation,
           Event.setState GameState.MENU])
    ∧ (∃ s', handleCompletion [] (finishedRace 5 (-1)) = some s'
        ∧ s'.game.events =
          [Event.sendPacket { packetType := PacketType.WORLD_COMPLETE, ints := [5] },
           Event.scroll "WINNER! SCORE:", Event.scrollNumber 5, Event.stopAnimation,
           Event.setState GameState.MENU]) := by
  refine ⟨?_, ?_, ?_, ?_⟩
  · obtain ⟨msg, s', h, hev, hw, _, _⟩ :=
      (handleCompletion_compares_scores [] (finishedRace 5 3) rfl).1 rfl
    have hmsg : msg = "WINNER! SCORE:" := hw.2 (by decide)
    subst hmsg
    exact ⟨s', h, hev⟩
  · obtain ⟨msg, s', h, hev, _, hl, _⟩ :=
      (handleCompletion_compares_scores [] (finishedRace 3 5) rfl).1 rfl
    have hmsg : msg = "LOOSER! SCORE:" := hl.2 (by decide)
    subst hmsg
    exact ⟨s', h, hev⟩
  · obtain ⟨msg, s', h, hev, _, _, hd⟩ :=
      (handleCompletion_compares_scores [] (finishedRace 4 4) rfl).1 rfl
    have hmsg : msg = "DRAW! SCORE:" := hd.2 (by decide)
    subst hmsg
    exact ⟨s', h, hev⟩
  · obtain ⟨msg, s', h, hev, hw, _, _⟩ :=
      (handleCompletion_compares_scores [] (finishedRace 5 (-1)) rfl).1 rfl
    have hmsg : msg = "WINNER! SCORE:" := hw.2 (by decide)
    subst hmsg
    exact ⟨s', h, hev⟩

/-! ## Render -/

theorem renderBlock_lookups (ox oy x y : Int) (s : PlayGameState) :
    (renderBlock ox oy x y s).lookups
      = s.lookups ++ [s.player.location.getRelative (x - ox) (y - oy)] := by
  unfold renderBlock
  simp only [PlayGameState.getBlock]
  split <;> [skip; skip; skip; split_ifs] <;> rfl

theorem renderBlock_player (ox oy x y : Int) (s : PlayGameState) :
    (renderBlock ox oy x y s).player = s.player := by
  unfold renderBlock
  simp only [PlayGameState.getBlock]
  split <;> [skip; skip; skip; split_ifs] <;> rfl

theorem renderBlock_world (ox oy x y : Int) (s : PlayGameState) :
    (renderBlock ox oy x y s).world = s.world := by
  unfold renderBlock
  simp only [PlayGameState.getBlock]
  split <;> [skip; skip; skip; split_ifs] <;> rfl

theorem renderColumn_frame (ox oy x : Int) (ys : List Int) :
    ∀ s : PlayGameState,
      (ys.foldl (fun s y => renderBlock ox oy x y s) s).player = s.player
      ∧ (ys.foldl (fun s y => renderBlock ox oy x y s) s).world = s.world
      ∧ (ys.foldl (fun s y => renderBlock ox oy x y s) s).lookups
          = s.lookups ++ ys.map fun y => s.player.location.getRelative (x - ox) (y - oy) := by
  induction ys with
  | nil => intro s; simp
  | cons y ys ih =>
    intro s
    obtain ⟨hp, hw, hl⟩ := ih (renderBlock ox oy x y s)
    simp only [List.foldl_cons, List.map_cons]
    refine ⟨?_, ?_, ?_⟩
    · rw [hp, renderBlock_player]
    · rw [hw, renderBlock_world]
    · rw [hl, renderBlock_lookups, renderBlock_player, List.append_assoc]
      rfl

theorem renderRows_frame (ox oy : Int) (ys xs : List Int) :
    ∀ s : PlayGameState,
      (xs.foldl (fun s x => ys.foldl (fun s y => renderBlock ox oy x y s) s) s).player = s.player
      ∧ (xs.foldl (fun s x => ys.foldl (fun s y => renderBlock ox oy x y s) s) s).world = s.world
      ∧ (xs.foldl (fun s x => ys.foldl (fun s y => renderBlock ox oy x y s) s) s).lookups
          = s.lookups ++ xs.flatMap fun x =>
              ys.map fun y => s.player.location.getRelative (x - ox) (y - oy) := by
  induction xs with
  | nil => intro s; simp
  | cons x xs ih =>
    intro s
    obtain ⟨hp, hw, hl⟩ := ih (ys.foldl (fun s y => renderBlock ox oy x y s) s)
    obtain ⟨hp1, hw1, hl1⟩ := renderColumn_frame ox oy x ys s
    simp only [List.foldl_cons, List.flatMap_cons]
    refine ⟨?_, ?_, ?_⟩
    · rw [hp, hp1]
    · rw [hw, hw1]
    · rw [hl, hl1, hp1, List.append_assoc]

theorem mem_screenRange (x : Int) : x ∈ screenRange ↔ 0 ≤ x ∧ x < SCREEN_SIZE := by
  have h : screenRange = [0, 1, 2, 3, 4] := by decide
  rw [h]
  simp only [List.mem_cons, List.mem_singleton, SCREEN_SIZE, List.not_mem_nil, or_false]
  omega

/-- C6: in a world at least `SCREEN_SIZE` wide and high, with the player anywhere inside the
world (corners included), `render` looks up exactly the cells
`(px + x - offsetX, py + y - offsetY)` for the screen coordinates `0 <= x, y < SCREEN_SIZE`,
and every one of them lies in `[0,maxX) x [0,maxY)`; `render` does not change the world. -/
theorem render_lookups_in_bounds (s : PlayGameState)
    (hmaxX : SCREEN_SIZE ≤ s.world.maxX) (hmaxY : SCREEN_SIZE ≤ s.world.maxY)
    (hplayer : s.world.inBounds s.player.location) :
    (render s).world = s.world
    ∧ (render s).lookups = s.lookups ++ screenRange.flatMap (fun x =>
        screenRange.map (fun y =>
          s.player.location.getRelative (x - (renderOffset s.world s.player.location).1)
            (y - (renderOffset s.world s.player.location).2)))
    ∧ (∀ x y : Int, 0 ≤ x → x < SCREEN_SIZE → 0 ≤ y → y < SCREEN_SIZE →
        s.world.inBounds
          { x := s.player.location.x + (x - (renderOffset s.world s.player.location).1),
            y := s.player.location.y + (y - (renderOffset s.world s.player.location).2) })
    ∧ (∀ loc ∈ (render s).lookups, loc ∈ s.lookups ∨ s.world.inBounds loc) := by
  have hcells : ∀ x y : Int, 0 ≤ x → x < SCREEN_SIZE → 0 ≤ y → y < SCREEN_SIZE →
      s.world.inBounds
        { x := s.player.location.x + (x - (renderOffset s.world s.player.location).1),
          y := s.player.location.y + (y - (renderOffset s.world s.player.location).2) } := by
    intro x y hx0 hx1 hy0 hy1
    unfold World.inBounds at hplayer ⊢
    unfold renderOffset
    simp only [SCREEN_SIZE, SCREEN_CENTER] at *
    split_ifs <;> omega
  obtain ⟨_, hw, hl⟩ := renderRows_frame (renderOffset s.world s.player.location).1
    (renderOffset s.world s.player.location).2 screenRange screenRange
    { s with game := (s.game.setPixelValue
        (toUInt16 (renderOffset s.world s.player.location).1)
        (toUInt16 ((SCREEN_SIZE - 1) - (renderOffset s.world s.player.location).2)) 255) }
  have hlook : (render s).lookups = s.lookups ++ screenRange.flatMap (fun x =>
        screenRange.map (fun y =>
          s.player.location.getRelative (x - (renderOffset s.world s.player.location).1)
            (y - (renderOffset s.world s.player.location).2))) := hl
  refine ⟨hw, hlook, hcells, ?_⟩
  intro loc hloc
  rw [hlook, List.mem_append] at hloc
  rcases hloc with h | h
  · exact Or.inl h
  · right
    simp only [List.mem_flatMap, List.mem_map] at h
    obtain ⟨x, hx, y, hy, rfl⟩ := h
    rw [mem_screenRange] at hx hy
    exact hcells x y hx.1 hx.2 hy.1 hy.2

/-- Witness for C6: the top right corner (7,5) of `floorWorld`; the cell shown at the top
right screen coordinate (4,4) is the corner itself. -/
theorem render_lookups_in_bounds_witness :
    (render (exampleSession false floorWorld { x := 7, y := 5 })).world = floorWorld
    ∧ floorWorld.inBounds
        { x := 7 + (4 - (renderOffset floorWorld { x := 7, y := 5 }).1),
          y := 5 + (4 - (renderOffset floorWorld { x := 7, y := 5 }).2) } :=
  ⟨(render_lookups_in_bounds (exampleSession false floorWorld { x := 7, y := 5 })
      (by decide) (by decide) (by decide)).1,
   (render_lookups_in_bounds (exampleSession false floorWorld { x := 7, y := 5 })
      (by decide) (by decide) (by decide)).2.2.1 4 4 (by decide) (by decide) (by decide)
      (by decide)⟩

/-! ## Block lookups of a running session -/

theorem tick_vertical_cases (inbox : List (List ByteBuf)) (ax : Int) (s : PlayGameState)
    (hcenter : s.world.getBlock s.player.location ≠ BlockType.FLAG) :
    ∃ m : PlayGameState, m.world.maxX = s.world.maxX ∧ m.game = s.game
      ∧ m.player.location.x = s.player.location.x
      ∧ m.player.velocity.x = s.player.velocity.x
      ∧ m.lookups = s.lookups ++ [s.player.location, s.player.location.getRelative 0 1,
          s.player.location.getRelative 0 (-1)]
      ∧ ((tick inbox ax s = some (handleDeath m) ∧ m.player.location.y < 0)
        ∨ (tick inbox ax s = some (tickHorizontal ax m)
            ∧ (0 ≤ s.player.location.y → 0 ≤ m.player.location.y))) := by
  have hcf : s.world.blocks s.player.location.x s.player.location.y ≠ BlockType.FLAG := by
    simpa [World.getBlock] using hcenter
  unfold tick
  simp only [PlayGameState.getBlock, World.getBlock]
  rw [if_neg hcf]
  by_cases hcoin : s.world.blocks s.player.location.x s.player.location.y = BlockType.COIN
  all_goals
    simp only [hcoin, if_true, if_false]
    split_ifs
    all_goals
      try dsimp only
      first
        | (refine ⟨_, ?_, ?_, ?_, ?_, ?_, Or.inl ⟨rfl, ?_⟩⟩ <;>
            first
              | rfl
              | assumption
              | simp)
        | (refine ⟨_, ?_, ?_, ?_, ?_, ?_, Or.inr ⟨rfl, ?_⟩⟩ <;>
            first
              | rfl
              | (intro h; simp only [Vector2i.addY] at *; omega)
              | simp)

theorem tickHorizontal_lookups (ax : Int) (s : PlayGameState) :
    (tickHorizontal ax s).lookups
      = s.lookups ++ [s.player.location.getRelative (-1) 0, s.player.location.getRelative 1 0] := by
  unfold tickHorizontal
  simp only [PlayGameState.getBlock]
  split_ifs <;> simp

theorem tickHorizontal_x_bounds (ax : Int) (s : PlayGameState)
    (hvel : s.player.velocity.x = 0) (h0 : 0 ≤ s.player.location.x)
    (h1 : s.player.location.x < s.world.maxX) :
    0 ≤ (tickHorizontal ax s).player.location.x
      ∧ (tickHorizontal ax s).player.location.x < s.world.maxX := by
  unfold tickHorizontal
  simp only [PlayGameState.getBlock]
  split_ifs <;> simp only [Vector2i.addX] at * <;> omega

theorem onMessage_frame (s : PlayGameState) (inp : ByteBuf) :
    (s.onMessage inp).player = s.player ∧ (s.onMessage inp).world = s.world
      ∧ (s.onMessage inp).lookups = s.lookups := by
  unfold PlayGameState.onMessage
  split
  · split_ifs <;> exact ⟨rfl, rfl, rfl⟩
  · exact ⟨rfl, rfl, rfl⟩
  · exact ⟨rfl, rfl, rfl⟩
  · exact ⟨rfl, rfl, rfl⟩

theorem receive_frame (s : PlayGameState) (inp : ByteBuf) :
    (s.receive inp).player = s.player ∧ (s.receive inp).world = s.world
      ∧ (s.receive inp).lookups = s.lookups := by
  unfold PlayGameState.receive
  split_ifs
  · exact onMessage_frame s inp
  · exact ⟨rfl, rfl, rfl⟩

theorem receiveAll_frame (arrived : List ByteBuf) :
    ∀ s : PlayGameState, (arrived.foldl receive s).player = s.player
      ∧ (arrived.foldl receive s).world = s.world
      ∧ (arrived.foldl receive s).lookups = s.lookups := by
  induction arrived with
  | nil => intro s; exact ⟨rfl, rfl, rfl⟩
  | cons inp rest ih =>
    intro s
    obtain ⟨hp, hw, hl⟩ := ih (s.receive inp)
    obtain ⟨hp1, hw1, hl1⟩ := receive_frame s inp
    simp only [List.foldl_cons]
    exact ⟨hp.trans hp1, hw.trans hw1, hl.trans hl1⟩

theorem waitForPartner_frame (inbox : List (List ByteBuf)) :
    ∀ s w : PlayGameState, waitForPartner inbox s = some w →
      w.player = s.player ∧ w.world = s.world ∧ w.lookups = s.lookups := by
  induction inbox with
  | nil =>
    intro s w h
    unfold waitForPartner at h
    by_cases hp : s.partnerComplete = true
    · simp [hp] at h; rw [← h]; exact ⟨rfl, rfl, rfl⟩
    · simp [hp] at h
  | cons arrived rest ih =>
    intro s w h
    unfold waitForPartner at h
    by_cases hp : s.partnerComplete = true
    · simp [hp] at h; rw [← h]; exact ⟨rfl, rfl, rfl⟩
    · rw [if_neg hp] at h
      obtain ⟨h1, h2, h3⟩ := ih _ _ h
      exact ⟨h1.trans (receiveAll_frame arrived _).1, h2.trans (receiveAll_frame arrived _).2.1,
        h3.trans (receiveAll_frame arrived _).2.2⟩

theorem handleCompletion_frame (inbox : List (List ByteBuf)) (s s' : PlayGameState)
    (h : handleCompletion inbox s = some s') :
    s'.player = s.player ∧ s'.world = s.world ∧ s'.lookups = s.lookups
      ∧ s'.game.state = GameState.MENU := by
  unfold handleCompletion at h
  by_cases hm : s.game.multiplayer = true
  · simp only [hm, if_true, Option.map_eq_some'] at h
    obtain ⟨a, ⟨w, hw, ha⟩, hs⟩ := h
    obtain ⟨h1, h2, h3⟩ := waitForPartner_frame _ _ _ hw
    subst hs
    subst ha
    refine ⟨?_, ?_, ?_, ?_⟩
    · split_ifs <;> exact h1
    · split_ifs <;> exact h2
    · split_ifs <;> exact h3
    · rfl
  · simp only [hm, Option.map_eq_some'] at h
    obtain ⟨a, ha, hs⟩ := h
    simp at ha
    subst hs
    subst ha
    exact ⟨rfl, rfl, rfl, rfl⟩

theorem jump_frame (impulse : Int) (s : PlayGameState) :
    (jump impulse s).player.location = s.player.location
      ∧ (jump impulse s).player.velocity.x = s.player.velocity.x
      ∧ (jump impulse s).world = s.world
      ∧ (jump impulse s).game = s.game
      ∧ (jump impulse s).lookups = s.lookups ++ [s.player.location.addY (-1)] := by
  unfold jump
  simp only [PlayGameState.getBlock]
  split_ifs <;> exact ⟨rfl, rfl, rfl, rfl, rfl⟩

/-- C1, as stated, fails: in `airWorld` a session started at rest at (1,1) falls to (1,0) in
its first tick and is still in Play; its second tick then reads the tile below, at (1,-1),
which is outside the grid. -/
theorem tick_lookup_below_grid :
    (tick [] 0 (exampleSession false airWorld { x := 1, y := 1 })).map
        (fun s => (s.game.state, s.player.location))
      = some (GameState.PLAY, { x := 1, y := 0 })
    ∧ ((tick [] 0 (exampleSession false airWorld { x := 1, y := 1 })).bind
        (tick [] 0)).map (fun s => s.lookups)
      = some [{ x := 1, y := 1 }, { x := 1, y := 2 }, { x := 1, y := 0 },
              { x := 0, y := 0 }, { x := 2, y := 0 },
              { x := 1, y := 0 }, { x := 1, y := 1 }, { x := 1, y := -1 }]
    ∧ ¬ airWorld.inBounds { x := 1, y := -1 } := by
  decide

/-- C1, amended: in a world at least 2 tiles wide, for a session started at (1,1) with zero
horizontal velocity and every state it reaches by ticks and jumps while Play is active, the
player's column stays inside `[0,maxX)` and, while Play is active, its row is at least 0;
every block lookup made so far is at the player's tile or a tile next to it, hence at a
coordinate with `-1 <= x <= maxX` and `-1 <= y`. -/
theorem reachable_lookups_near_grid (impulse : Int) (s0 s : PlayGameState)
    (hloc : s0.player.location = { x := 1, y := 1 })
    (hvel : s0.player.velocity.x = 0)
    (hlog : s0.lookups = [])
    (hmaxX : 2 ≤ s0.world.maxX)
    (hreach : Reachable impulse s0 s) :
    s.world.maxX = s0.world.maxX
    ∧ s.player.velocity.x = 0
    ∧ (0 ≤ s.player.location.x ∧ s.player.location.x < s.world.maxX)
    ∧ (s.game.state = GameState.PLAY → 0 ≤ s.player.location.y)
    ∧ (∀ loc ∈ s.lookups, -1 ≤ loc.x ∧ loc.x ≤ s.world.maxX ∧ -1 ≤ loc.y) := by
  induction hreach with
  | start =>
    refine ⟨rfl, hvel, ?_, ?_, ?_⟩
    · rw [hloc]; exact ⟨by decide, by show (1 : Int) < s0.world.maxX; omega⟩
    · intro _; rw [hloc]; simp
    · intro loc h; rw [hlog] at h; exact absurd h (List.not_mem_nil loc)
  | @tick s s' inbox ax _ hplay htick ih =>
    obtain ⟨hmx, hv, ⟨hx0, hx1⟩, hy, hl⟩ := ih
    have hy0 := hy hplay
    by_cases hc : s.world.getBlock s.player.location = BlockType.FLAG
    · have hcompl : handleCompletion inbox
          { s with lookups := s.lookups ++ [s.player.location] } = some s' := by
        unfold PlayGameState.tick at htick
        simp only [PlayGameState.getBlock] at htick
        rw [if_pos hc] at htick
        exact htick
      obtain ⟨hp, hw, hlk, hst⟩ := handleCompletion_frame _ _ _ hcompl
      refine ⟨by rw [hw]; exact hmx, by rw [hp]; exact hv, by rw [hp, hw]; exact ⟨hx0, hx1⟩,
        fun h => (by rw [hst] at h; cases h), ?_⟩
      intro loc h
      rw [hlk, hw] at *
      simp only [List.mem_append, List.mem_singleton] at h
      rcases h with h | h
      · exact hl loc h
      · subst h; refine ⟨by omega, by omega, by omega⟩
    · obtain ⟨m, hmw, hmg, hmx', hmv, hml, hcase⟩ := tick_vertical_cases inbox ax s hc
      have hlm : ∀ loc ∈ m.lookups, -1 ≤ loc.x ∧ loc.x ≤ s.world.maxX ∧ -1 ≤ loc.y := by
        intro loc h
        rw [hml] at h
        simp only [List.mem_append, List.mem_cons, List.mem_singleton, List.not_mem_nil,
          or_false] at h
        rcases h with h | h | h | h
        · exact hl loc h
        · subst h; exact ⟨by omega, by omega, by omega⟩
        · subst h; simp only [Vector2i.getRelative]; exact ⟨by omega, by omega, by omega⟩
        · subst h; simp only [Vector2i.getRelative]; exact ⟨by omega, by omega, by omega⟩
      rcases hcase with ⟨ht, _⟩ | ⟨ht, hmy⟩
      · rw [ht] at htick
        have hs' : s' = handleDeath m := (Option.some.inj htick).symm
        subst hs'
        rw [handleDeath_world, handleDeath_player, handleDeath_lookups]
        refine ⟨by omega, by omega, ⟨by omega, by omega⟩,
          fun h => absurd h (handleDeath_state_ne_play m), ?_⟩
        intro loc h
        rw [hmw]
        exact hlm loc h
      · rw [ht] at htick
        have hs' : s' = tickHorizontal ax m := (Option.some.inj htick).symm
        subst hs'
        have hb := tickHorizontal_x_bounds ax m (by omega) (by omega) (by omega)
        rw [tickHorizontal_world, tickHorizontal_velocity, tickHorizontal_location_y,
          tickHorizontal_lookups]
        refine ⟨by omega, by omega, hb, fun _ => hmy hy0, ?_⟩
        intro loc h
        simp only [List.mem_append, List.mem_cons, List.mem_singleton, List.not_mem_nil,
          or_false] at h
        have hmy0 := hmy hy0
        rcases h with h | h | h
        · rw [hmw]; exact hlm loc h
        · subst h; simp only [Vector2i.getRelative]; exact ⟨by omega, by omega, by omega⟩
        · subst h; simp only [Vector2i.getRelative]; exact ⟨by omega, by omega, by omega⟩
  | @jump s _ hplay ih =>
    obtain ⟨hmx, hv, ⟨hx0, hx1⟩, hy, hl⟩ := ih
    have hy0 := hy hplay
    obtain ⟨jl, jv, jw, jg, jlk⟩ := jump_frame impulse s
    rw [jl, jv, jw, jg, jlk]
    refine ⟨hmx, hv, ⟨hx0, hx1⟩, hy, ?_⟩
    intro loc h
    simp only [List.mem_append, List.mem_singleton] at h
    rcases h with h | h
    · exact hl loc h
    · subst h; simp only [Vector2i.addY]; exact ⟨by omega, by omega, by omega⟩

/-- Witness for C1, amended: one tick, tilted right, from (1,1) on the floor of `floorWorld`. -/
theorem reachable_lookups_near_grid_witness :
    ∃ s1, tick [] 400 (exampleSession false floorWorld { x := 1, y := 1 }) = some s1
      ∧ s1.world.maxX = floorWorld.maxX
      ∧ s1.player.velocity.x = 0
      ∧ (0 ≤ s1.player.location.x ∧ s1.player.location.x < s1.world.maxX)
      ∧ (s1.game.state = GameState.PLAY → 0 ≤ s1.player.location.y)
      ∧ (∀ loc ∈ s1.lookups, -1 ≤ loc.x ∧ loc.x ≤ s1.world.maxX ∧ -1 ≤ loc.y) := by
  obtain ⟨s1, h⟩ :
      ∃ s1, tick [] 400 (exampleSession false floorWorld { x := 1, y := 1 }) = some s1 :=
    ⟨_, rfl⟩
  exact ⟨s1, h, reachable_lookups_near_grid 3 (exampleSession false floorWorld { x := 1, y := 1 })
    s1 rfl rfl rfl (by decide) (Reachable.tick [] 400 Reachable.start rfl h)⟩

/-! ## Peer messages in the Death state -/

/-- C11, as stated, fails: on `WORLD_COMPLETE` carrying 3 the Death state sends a packet
(`WORLD_COMPLETE` with score -1) and makes Menu the active state. -/
theorem death_onMessage_worldComplete_quits :
    (DeathGameState.onMessage exampleDeath
        { packetType := PacketType.WORLD_COMPLETE, ints := [3] }).game.sent
      = [{ packetType := PacketType.WORLD_COMPLETE, ints := [-1] }]
    ∧ (DeathGameState.onMessage exampleDeath
        { packetType := PacketType.WORLD_COMPLETE, ints := [3] }).game.state = GameState.MENU
    ∧ exampleDeath.game.state = GameState.DEATH 7
    ∧ exampleDeath.game.sent = [] := by
  decide

/-- C11, amended: on a `WORLD_COMPLETE` packet carrying `n` the Play state only records the
peer's completion (`partnerScore` is `n`, `partnerComplete` is true), sends nothing and
leaves the active state as it is; the Death state records nothing: it sends exactly one
packet, `WORLD_COMPLETE` with score -1, stops the animation, makes Menu the active state and
starts the lose banner. -/
theorem onMessage_worldComplete_play_and_death (p : PlayGameState) (d : DeathGameState)
    (n : Int) (ints : List Int) :
    ((p.onMessage { packetType := PacketType.WORLD_COMPLETE, ints := n :: ints }).partnerScore = n
      ∧ (p.onMessage { packetType := PacketType.WORLD_COMPLETE, ints := n :: ints }).partnerComplete
          = true
      ∧ (p.onMessage { packetType := PacketType.WORLD_COMPLETE, ints := n :: ints }).game.sent
          = p.game.sent
      ∧ (p.onMessage { packetType := PacketType.WORLD_COMPLETE, ints := n :: ints }).game.state
          = p.game.state)
    ∧ ((d.onMessage { packetType := PacketType.WORLD_COMPLETE, ints := n :: ints }).game.events
          = d.game.events ++
            [Event.sendPacket { packetType := PacketType.WORLD_COMPLETE, ints := [-1] },
             Event.stopAnimation, Event.setState GameState.MENU,
             Event.scrollAsync "LOOSER! SCORE: 0"]
      ∧ (d.onMessage { packetType := PacketType.WORLD_COMPLETE, ints := n :: ints }).game.sent
          = d.game.sent ++ [{ packetType := PacketType.WORLD_COMPLETE, ints := [-1] }]
      ∧ (d.onMessage { packetType := PacketType.WORLD_COMPLETE, ints := n :: ints }).game.state
          = GameState.MENU
      ∧ (d.onMessage { packetType := PacketType.WORLD_COMPLETE, ints := n :: ints }).worldId
          = d.worldId
      ∧ (d.onMessage { packetType := PacketType.WORLD_COMPLETE, ints := n :: ints }).counter
          = d.counter) := by
  constructor
  · cases h : p.complete <;>
      simp [PlayGameState.onMessage, ByteBuf.readPacketType, ByteBuf.readInt, h, Game.emit,
        Game.sent]
  · simp [DeathGameState.onMessage, DeathGameState.quitToMenu, ByteBuf.readPacketType,
      Game.setState, Game.emit, Game.sendPacket, Game.sent, Game.createPacket,
      ByteBuf.writePacketType, ByteBuf.writeInt]

/-- C12: a packet whose type tag is none of `WORLD_COMPLETE`, `QUIT_WORLD`, `DISCONNECT` is
dropped by both handlers: the Play state and the Death state after `onMessage` are the
states before it, so the session fields, the active state and the packets sent are all
unchanged. -/
theorem onMessage_unrecognised_noop (p : PlayGameState) (d : DeathGameState) (inp : ByteBuf)
    (hwc : inp.readPacketType ≠ PacketType.WORLD_COMPLETE)
    (hquit : inp.readPacketType ≠ PacketType.QUIT_WORLD)
    (hdis : inp.readPacketType ≠ PacketType.DISCONNECT) :
    p.onMessage inp = p ∧ d.onMessage inp = d := by
  rcases inp with ⟨t, l⟩
  cases t with
  | WORLD_COMPLETE => exact absurd rfl hwc
  | QUIT_WORLD => exact absurd rfl hquit
  | DISCONNECT => exact absurd rfl hdis
  | OTHER tag => exact ⟨rfl, rfl⟩

/-- Witness for C12: a packet with the unknown tag 9 and a stray integer field. -/
theorem onMessage_unrecognised_noop_witness :
    (exampleSession true floorWorld { x := 1, y := 1 }).onMessage
        { packetType := PacketType.OTHER 9, ints := [4] }
      = exampleSession true floorWorld { x := 1, y := 1 }
    ∧ exampleDeath.onMessage { packetType := PacketType.OTHER 9, ints := [4] } = exampleDeath :=
  onMessage_unrecognised_noop (exampleSession true floorWorld { x := 1, y := 1 }) exampleDeath
    { packetType := PacketType.OTHER 9, ints := [4] } (by decide) (by decide) (by decide)

/-! ## Vertical step -/

/-- C15: the vertical step of `PlayGameState::tick` for a player not on a flag. With `v0`
the vertical velocity after the head-bump clamp (0 if the tile above is `SOLID` and
`vy > 0`, else `vy`) and `v1` the velocity after gravity (`v0 - 1` if the tile below is not
`SOLID`, else `v0`), the tick returns and: if `v1 > 0` the player is one row up with
velocity `v1`; if `v1 < 0` on a `SOLID` tile the row is unchanged and the velocity 0; if
`v1 < 0` over a non-`SOLID` tile the player is one row down with velocity `v1`, however
negative; if `v1 = 0` row and velocity are unchanged. In every case the row changes by at
most 1. -/
theorem tick_vertical_step (inbox : List (List ByteBuf)) (accelerometerX : Int)
    (s : PlayGameState) (v0 v1 : Int)
    (hcenter : s.world.getBlock s.player.location ≠ BlockType.FLAG)
    (hv0 : v0 = if s.world.getBlock (s.player.location.getRelative 0 1) = BlockType.SOLID
                  ∧ s.player.velocity.y > 0 then 0 else s.player.velocity.y)
    (hv1 : v1 = if s.world.getBlock (s.player.location.getRelative 0 (-1)) ≠ BlockType.SOLID
                  then v0 - 1 else v0) :
    ∃ s', tick inbox accelerometerX s = some s'
      ∧ (v1 > 0 → s'.player.location.y = s.player.location.y + 1 ∧ s'.player.velocity.y = v1)
      ∧ (v1 < 0 → s.world.getBlock (s.player.location.getRelative 0 (-1)) = BlockType.SOLID →
          s'.player.location.y = s.player.location.y ∧ s'.player.velocity.y = 0)
      ∧ (v1 < 0 → s.world.getBlock (s.player.location.getRelative 0 (-1)) ≠ BlockType.SOLID →
          s'.player.location.y = s.player.location.y - 1 ∧ s'.player.velocity.y = v1)
      ∧ (v1 = 0 → s'.player.location.y = s.player.location.y ∧ s'.player.velocity.y = 0)
      ∧ |s'.player.location.y - s.player.location.y| ≤ 1 := by
  have hcf : s.world.blocks s.player.location.x s.player.location.y ≠ BlockType.FLAG := by
    simpa [World.getBlock] using hcenter
  simp only [World.getBlock, Vector2i.getRelative, add_zero] at hv0 hv1 ⊢
  unfold tick
  simp only [PlayGameState.getBlock, World.getBlock]
  rw [if_neg hcf]
  by_cases hcoin : s.world.blocks s.player.location.x s.player.location.y = BlockType.COIN <;>
  by_cases habove : s.world.blocks s.player.location.x (s.player.location.y + 1)
        = BlockType.SOLID ∧ s.player.velocity.y > 0 <;>
  by_cases hb : s.world.blocks s.player.location.x (s.player.location.y + -1) = BlockType.SOLID
  all_goals
    first
      | rw [if_pos habove] at hv0
      | rw [if_neg habove] at hv0
    first
      | rw [if_pos (by simpa using hb)] at hv1
      | rw [if_neg (by simpa using hb)] at hv1
    subst hv0
    subst hv1
    simp [hcoin, World.setBlock, Vector2i.getRelative, Vector2i.addY, Vector2i.setY, hb, habove,
      tickHorizontal_location_y, tickHorizontal_velocity, handleDeath_player] <;>
    (split_ifs <;>
      (refine ⟨_, rfl, ?_⟩
       simp [tickHorizontal_location_y, tickHorizontal_velocity, handleDeath_player, abs_le]
       omega))

/-- Witness for C15: falling in `airWorld` from (1,3) at rest: `v0 = 0`, `v1 = -1`. -/
theorem tick_vertical_step_witness :
    ∃ s', tick [] 0 (exampleSession false airWorld { x := 1, y := 3 }) = some s'
      ∧ s'.player.location.y = 3 - 1 ∧ s'.player.velocity.y = -1
      ∧ |s'.player.location.y - 3| ≤ 1 := by
  obtain ⟨s', h, _, _, hdown, _, habs⟩ :=
    tick_vertical_step [] 0 (exampleSession false airWorld { x := 1, y := 3 }) 0 (-1)
      (by decide) (by decide) (by decide)
  exact ⟨s', h, (hdown (by decide) (by decide)).1, (hdown (by decide) (by decide)).2, habs⟩

/-! ## Coin blink -/

theorem tickHorizontal_displayCoins (ax : Int) (s : PlayGameState) :
    (tickHorizontal ax s).displayCoins = !s.displayCoins := by
  unfold tickHorizontal
  simp only [PlayGameState.getBlock]
  split_ifs <;> rfl

theorem tickHorizontal_x_step (ax : Int) (s : PlayGameState) (hvel : s.player.velocity.x = 0) :
    s.player.location.x - 1 ≤ (tickHorizontal ax s).player.location.x
      ∧ (tickHorizontal ax s).player.location.x ≤ s.player.location.x + 1 := by
  unfold tickHorizontal
  simp only [PlayGameState.getBlock]
  split_ifs <;> simp only [Vector2i.addX] at * <;> omega

theorem tickHorizontal_tile (ax : Int) (s : PlayGameState) (hvel : s.player.velocity.x = 0)
    (htile : s.world.getBlock s.player.location ≠ BlockType.SOLID) :
    (tickHorizontal ax s).world.getBlock (tickHorizontal ax s).player.location
      ≠ BlockType.SOLID := by
  unfold tickHorizontal
  simp only [PlayGameState.getBlock]
  split_ifs
  all_goals
    simp only [Vector2i.addX, Vector2i.getRelative, World.getBlock, add_zero] at *
    first
      | exact htile
      | omega
      | exact (‹_ ∧ _ ∧ _›).2.2

theorem onMessage_displayCoins (s : PlayGameState) (inp : ByteBuf) :
    (s.onMessage inp).displayCoins = s.displayCoins := by
  unfold PlayGameState.onMessage
  split
  · split_ifs <;> rfl
  · rfl
  · rfl
  · rfl

theorem receiveAll_displayCoins (arrived : List ByteBuf) :
    ∀ s : PlayGameState, (arrived.foldl receive s).displayCoins = s.displayCoins := by
  induction arrived with
  | nil => intro s; rfl
  | cons inp rest ih =>
    intro s
    simp only [List.foldl_cons]
    rw [ih]
    unfold PlayGameState.receive
    split_ifs
    · exact onMessage_displayCoins s inp
    · rfl

theorem waitForPartner_displayCoins (inbox : List (List ByteBuf)) :
    ∀ s w : PlayGameState, waitForPartner inbox s = some w → w.displayCoins = s.displayCoins := by
  induction inbox with
  | nil =>
    intro s w h
    unfold waitForPartner at h
    by_cases hp : s.partnerComplete = true
    · simp [hp] at h; rw [← h]
    · simp [hp] at h
  | cons arrived rest ih =>
    intro s w h
    unfold waitForPartner at h
    by_cases hp : s.partnerComplete = true
    · simp [hp] at h; rw [← h]
    · rw [if_neg hp] at h
      exact (ih _ _ h).trans (receiveAll_displayCoins arrived _)

theorem handleCompletion_displayCoins (inbox : List (List ByteBuf)) (s s' : PlayGameState)
    (h : handleCompletion inbox s = some s') : s'.displayCoins = s.displayCoins := by
  unfold handleCompletion at h
  by_cases hm : s.game.multiplayer = true
  · simp only [hm, if_true, Option.map_eq_some'] at h
    obtain ⟨a, ⟨w, hw, ha⟩, hs⟩ := h
    have h1 := waitForPartner_displayCoins _ _ _ hw
    subst hs
    subst ha
    split_ifs <;> exact h1
  · simp only [hm, Option.map_eq_some'] at h
    obtain ⟨a, ha, hs⟩ := h
    simp at ha
    subst hs
    subst ha
    rfl

theorem tick_displayCoins_of_not_flag (inbox : List (List ByteBuf)) (ax : Int)
    (s : PlayGameState) (hcenter : s.world.getBlock s.player.location ≠ BlockType.FLAG) :
    ∃ s', tick inbox ax s = some s'
      ∧ ((s'.game.state ≠ GameState.PLAY ∧ s'.displayCoins = s.displayCoins)
        ∨ (s'.game = s.game ∧ s'.displayCoins = !s.displayCoins)) := by
  have hcf : s.world.blocks s.player.location.x s.player.location.y ≠ BlockType.FLAG := by
    simpa [World.getBlock] using hcenter
  unfold tick
  simp only [PlayGameState.getBlock, World.getBlock]
  rw [if_neg hcf]
  by_cases hcoin : s.world.blocks s.player.location.x s.player.location.y = BlockType.COIN <;>
  by_cases habove : s.world.blocks s.player.location.x (s.player.location.y + 1)
        = BlockType.SOLID ∧ s.player.velocity.y > 0 <;>
  by_cases hb : s.world.blocks s.player.location.x (s.player.location.y + -1) = BlockType.SOLID
  all_goals
    simp [hcoin, World.setBlock, Vector2i.getRelative, Vector2i.addY, Vector2i.setY, hb, habove,
      tickHorizontal_game, tickHorizontal_displayCoins, handleDeath_displayCoins,
      handleDeath_state_ne_play] <;>
    (split_ifs <;>
      (refine ⟨_, rfl, ?_⟩
       simp [tickHorizontal_game, tickHorizontal_displayCoins, handleDeath_displayCoins,
         handleDeath_state_ne_play]))

/-- C17, as stated, fails: a tick that ends in fall-death (row 0 of `airWorld`) and a tick
that finds the player on the flag (single-player, (6,1) of `floorWorld`) both return with
`displayCoins` as it was, false, not negated. -/
theorem tick_keeps_displayCoins_when_play_ends :
    (exampleSession false airWorld { x := 1, y := 0 }).displayCoins = false
    ∧ (tick [] 0 (exampleSession false airWorld { x := 1, y := 0 })).map
        (fun s => (s.displayCoins, s.game.state)) = some (false, GameState.DEATH 3)
    ∧ (exampleSession false floorWorld { x := 6, y := 1 }).displayCoins = false
    ∧ (tick [] 0 (exampleSession false floorWorld { x := 6, y := 1 })).map
        (fun s => (s.displayCoins, s.game.state)) = some (false, GameState.MENU) := by
  decide

/-- C17, amended: for a tick of a running Play state, `displayCoins` is negated exactly when
Play is still the active state after the tick, and is unchanged when the tick ends the Play
state (flag reached or fall-death). Hence the flag alternates tick by tick while the session
runs: two consecutive ticks that both leave Play active restore it. -/
theorem tick_toggles_displayCoins_while_playing (inbox : List (List ByteBuf))
    (accelerometerX : Int) (s s' : PlayGameState)
    (hplay : s.game.state = GameState.PLAY)
    (htick : tick inbox accelerometerX s = some s') :
    s'.displayCoins = (if s'.game.state = GameState.PLAY then !s.displayCoins else s.displayCoins)
    ∧ (∀ (inbox2 : List (List ByteBuf)) (accelerometerX2 : Int) (s'' : PlayGameState),
        s'.game.state = GameState.PLAY → tick inbox2 accelerometerX2 s' = some s'' →
        s''.game.state = GameState.PLAY → s''.displayCoins = s.displayCoins) := by
  have key : ∀ (inbox : List (List ByteBuf)) (ax : Int) (a b : PlayGameState),
      a.game.state = GameState.PLAY → tick inbox ax a = some b →
      b.displayCoins = (if b.game.state = GameState.PLAY then !a.displayCoins
        else a.displayCoins) := by
    intro inbox ax a b ha hab
    by_cases hc : a.world.getBlock a.player.location = BlockType.FLAG
    · have hcompl : handleCompletion inbox
          { a with lookups := a.lookups ++ [a.player.location] } = some b := by
        unfold PlayGameState.tick at hab
        simp only [PlayGameState.getBlock] at hab
        rw [if_pos hc] at hab
        exact hab
      have hd := handleCompletion_displayCoins _ _ _ hcompl
      have hst := (handleCompletion_frame _ _ _ hcompl).2.2.2
      rw [hst, hd]
      simp
    · obtain ⟨b', hb', hcase⟩ := tick_displayCoins_of_not_flag inbox ax a hc
      rw [hab] at hb'
      have hbb : b = b' := Option.some.inj hb'
      subst hbb
      rcases hcase with ⟨hne, hd⟩ | ⟨hg, hd⟩
      · rw [if_neg hne]; exact hd
      · rw [hg, if_pos ha]; exact hd
  refine ⟨key inbox accelerometerX s s' hplay htick, ?_⟩
  intro inbox2 ax2 s'' hplay' htick' hplay''
  have h1 := key inbox accelerometerX s s' hplay htick
  have h2 := key inbox2 ax2 s' s'' hplay' htick'
  rw [if_pos hplay'] at h1
  rw [if_pos hplay''] at h2
  rw [h2, h1]
  simp

/-- Witness for C17, amended: a tick at rest on the floor of `floorWorld`, flag false. -/
theorem tick_toggles_displayCoins_while_playing_witness :
    ∃ s1, tick [] 0 (exampleSession false floorWorld { x := 3, y := 1 }) = some s1
      ∧ s1.game.state = GameState.PLAY ∧ s1.displayCoins = true := by
  obtain ⟨s1, h⟩ :
      ∃ s1, tick [] 0 (exampleSession false floorWorld { x := 3, y := 1 }) = some s1 :=
    ⟨_, rfl⟩
  have hst : s1.game.state = GameState.PLAY := by
    have h2 : (tick [] 0 (exampleSession false floorWorld { x := 3, y := 1 })).map
        (fun s => s.game.state) = some GameState.PLAY := by decide
    rw [h] at h2
    exact Option.some.inj h2
  have hd := (tick_toggles_displayCoins_while_playing [] 0
    (exampleSession false floorWorld { x := 3, y := 1 }) s1 rfl h).1
  rw [if_pos hst] at hd
  exact ⟨s1, h, hst, hd⟩

/-! ## Horizontal bounds and solid tiles -/

theorem tick_tile_of_not_flag (inbox : List (List ByteBuf)) (ax : Int)
    (s : PlayGameState) (hcenter : s.world.getBlock s.player.location ≠ BlockType.FLAG)
    (hvel : s.player.velocity.x = 0)
    (htile : s.world.getBlock s.player.location ≠ BlockType.SOLID) :
    ∃ s', tick inbox ax s = some s'
      ∧ s'.world.getBlock s'.player.location ≠ BlockType.SOLID := by
  have hcf : s.world.blocks s.player.location.x s.player.location.y ≠ BlockType.FLAG := by
    simpa [World.getBlock] using hcenter
  have hcs : s.world.blocks s.player.location.x s.player.location.y ≠ BlockType.SOLID := by
    simpa [World.getBlock] using htile
  unfold tick
  simp only [PlayGameState.getBlock, World.getBlock]
  rw [if_neg hcf]
  by_cases hcoin : s.world.blocks s.player.location.x s.player.location.y = BlockType.COIN <;>
  by_cases habove : s.world.blocks s.player.location.x (s.player.location.y + 1)
        = BlockType.SOLID ∧ s.player.velocity.y > 0 <;>
  by_cases hb : s.world.blocks s.player.location.x (s.player.location.y + -1) = BlockType.SOLID
  all_goals
    simp [hcoin, World.setBlock, Vector2i.getRelative, Vector2i.addY, Vector2i.setY, hb, habove]
    try split_ifs
    all_goals
      try refine ⟨_, rfl, ?_⟩
      first
        | exact tickHorizontal_tile ax _ hvel (by
            simp only [World.getBlock]
            first
              | exact hcs
              | exact hb
              | (intro hA; exact habove ⟨hA, by omega⟩)
              | (simp; done)
              | (simp; exact hb)
              | (simp; intro hA; exact habove ⟨hA, by omega⟩))
        | (rw [handleDeath_world, handleDeath_player]
           simp only [World.getBlock]
           first
             | exact hb
             | (simp; exact hb))

/-- C19: horizontal bounds. For a player with zero horizontal velocity and
`0 <= x <= maxX - 1`, whatever the tilt reading, a tick that returns leaves `x` in
`[0, maxX - 1]` (the world keeps its `maxX`) and at most 1 away from the old `x`; and the
tick does return whenever the player is not on a flag. -/
theorem tick_x_stays_in_world (inbox : List (List ByteBuf)) (accelerometerX : Int)
    (s : PlayGameState)
    (hvel : s.player.velocity.x = 0)
    (hx0 : 0 ≤ s.player.location.x)
    (hx1 : s.player.location.x ≤ s.world.maxX - 1) :
    (s.world.getBlock s.player.location ≠ BlockType.FLAG →
      ∃ s', tick inbox accelerometerX s = some s')
    ∧ (∀ s', tick inbox accelerometerX s = some s' →
        s'.world.maxX = s.world.maxX
        ∧ 0 ≤ s'.player.location.x ∧ s'.player.location.x ≤ s'.world.maxX - 1
        ∧ |s'.player.location.x - s.player.location.x| ≤ 1) := by
  constructor
  · intro hc
    obtain ⟨m, _, _, _, _, _, hcase⟩ := tick_vertical_cases inbox accelerometerX s hc
    rcases hcase with ⟨h, _⟩ | ⟨h, _⟩
    · exact ⟨_, h⟩
    · exact ⟨_, h⟩
  · intro s' htick
    by_cases hc : s.world.getBlock s.player.location = BlockType.FLAG
    · have hcompl : handleCompletion inbox
          { s with lookups := s.lookups ++ [s.player.location] } = some s' := by
        unfold PlayGameState.tick at htick
        simp only [PlayGameState.getBlock] at htick
        rw [if_pos hc] at htick
        exact htick
      obtain ⟨hp, hw, _, _⟩ := handleCompletion_frame _ _ _ hcompl
      rw [hp, hw]
      refine ⟨rfl, hx0, hx1, ?_⟩
      simp
    · obtain ⟨m, hmw, _, hmx, hmv, _, hcase⟩ := tick_vertical_cases inbox accelerometerX s hc
      rcases hcase with ⟨ht, _⟩ | ⟨ht, _⟩
      · rw [ht] at htick
        have hs' : s' = handleDeath m := (Option.some.inj htick).symm
        subst hs'
        rw [handleDeath_world, handleDeath_player, hmw, hmx]
        refine ⟨rfl, hx0, hx1, ?_⟩
        simp
      · rw [ht] at htick
        have hs' : s' = tickHorizontal accelerometerX m := (Option.some.inj htick).symm
        subst hs'
        have hb := tickHorizontal_x_bounds accelerometerX m (by omega) (by omega) (by omega)
        have hstep := tickHorizontal_x_step accelerometerX m (by omega)
        rw [tickHorizontal_world, hmw]
        refine ⟨rfl, hb.1, by omega, ?_⟩
        rw [abs_le]
        constructor <;> omega

/-- Witness for C19: the right-most column (7,1) of `floorWorld`, tilted hard right. -/
theorem tick_x_stays_in_world_witness :
    ∃ s', tick [] 900 (exampleSession false floorWorld { x := 7, y := 1 }) = some s'
      ∧ 0 ≤ s'.player.location.x ∧ s'.player.location.x ≤ s'.world.maxX - 1
      ∧ |s'.player.location.x - 7| ≤ 1 := by
  obtain ⟨hret, hall⟩ := tick_x_stays_in_world [] 900
    (exampleSession false floorWorld { x := 7, y := 1 }) rfl (by decide) (by decide)
  obtain ⟨s', h⟩ := hret (by decide)
  exact ⟨s', h, (hall s' h).2.1, (hall s' h).2.2.1, (hall s' h).2.2.2⟩

/-- C20: the player never moves into a `SOLID` tile. For a player with zero horizontal
velocity whose tile is not `SOLID`, whatever the tilt reading, a tick that returns leaves
the player on a tile that is not `SOLID` in the updated world; and the tick does return
whenever the player is not on a flag. -/
theorem tick_never_enters_solid (inbox : List (List ByteBuf)) (accelerometerX : Int)
    (s : PlayGameState)
    (hvel : s.player.velocity.x = 0)
    (htile : s.world.getBlock s.player.location ≠ BlockType.SOLID) :
    (s.world.getBlock s.player.location ≠ BlockType.FLAG →
      ∃ s', tick inbox accelerometerX s = some s')
    ∧ (∀ s', tick inbox accelerometerX s = some s' →
        s'.world.getBlock s'.player.location ≠ BlockType.SOLID) := by
  constructor
  · intro hc
    obtain ⟨s', h, _⟩ := tick_tile_of_not_flag inbox accelerometerX s hc hvel htile
    exact ⟨s', h⟩
  · intro s' htick
    by_cases hc : s.world.getBlock s.player.location = BlockType.FLAG
    · have hcompl : handleCompletion inbox
          { s with lookups := s.lookups ++ [s.player.location] } = some s' := by
        unfold PlayGameState.tick at htick
        simp only [PlayGameState.getBlock] at htick
        rw [if_pos hc] at htick
        exact htick
      obtain ⟨hp, hw, _, _⟩ := handleCompletion_frame _ _ _ hcompl
      rw [hp, hw]
      exact htile
    · obtain ⟨s'', h, ht⟩ := tick_tile_of_not_flag inbox accelerometerX s hc hvel htile
      rw [htick] at h
      have hs : s' = s'' := Option.some.inj h
      subst hs
      exact ht

/-- Witness for C20: jumping up and right from (2,1) of `floorWorld`. -/
theorem tick_never_enters_solid_witness :
    ∃ s', tick [] 900 (jump 3 (exampleSession false floorWorld { x := 2, y := 1 })) = some s'
      ∧ s'.world.getBlock s'.player.location ≠ BlockType.SOLID := by
  obtain ⟨hret, hall⟩ := tick_never_enters_solid [] 900
    (jump 3 (exampleSession false floorWorld { x := 2, y := 1 })) (by decide) (by decide)
  obtain ⟨s', h⟩ := hret (by decide)
  exact ⟨s', h, hall s' h⟩

/-! ## Completion on the flag -/

theorem onMessage_sent (s : PlayGameState) (inp : ByteBuf) :
    (s.onMessage inp).game.sent = s.game.sent ∧ (s.onMessage inp).complete = s.complete
      ∧ (s.onMessage inp).score = s.score
      ∧ ∃ more, (s.onMessage inp).game.events = s.game.events ++ more := by
  unfold PlayGameState.onMessage
  split
  · split_ifs
    · exact ⟨by simp [Game.sent, Game.emit], rfl, rfl, ⟨_, rfl⟩⟩
    · exact ⟨rfl, rfl, rfl, ⟨[], by simp⟩⟩
  · exact ⟨by simp [PlayGameState.quitToMenu, Game.setState, Game.sent, Game.emit], rfl, rfl,
      ⟨[Event.stopAnimation, Event.setState GameState.MENU], by
        simp [PlayGameState.quitToMenu, Game.setState, Game.emit]⟩⟩
  · exact ⟨by simp [PlayGameState.quitToMenu, Game.setState, Game.sent, Game.emit,
        Game.disconnect], rfl, rfl,
      ⟨[Event.disconnect, Event.stopAnimation, Event.setState GameState.MENU], by
        simp [PlayGameState.quitToMenu, Game.setState, Game.emit, Game.disconnect]⟩⟩
  · exact ⟨rfl, rfl, rfl, ⟨[], by simp⟩⟩

theorem receiveAll_sent (arrived : List ByteBuf) :
    ∀ s : PlayGameState, (arrived.foldl receive s).game.sent = s.game.sent
      ∧ (arrived.foldl receive s).complete = s.complete
      ∧ (arrived.foldl receive s).score = s.score
      ∧ ∃ more, (arrived.foldl receive s).game.events = s.game.events ++ more := by
  induction arrived with
  | nil => intro s; exact ⟨rfl, rfl, rfl, ⟨[], by simp⟩⟩
  | cons inp rest ih =>
    intro s
    simp only [List.foldl_cons]
    obtain ⟨h1, h2, h3, more, h4⟩ := ih (s.receive inp)
    have hr : (s.receive inp).game.sent = s.game.sent ∧ (s.receive inp).complete = s.complete
        ∧ (s.receive inp).score = s.score
        ∧ ∃ more, (s.receive inp).game.events = s.game.events ++ more := by
      unfold PlayGameState.receive
      split_ifs
      · exact onMessage_sent s inp
      · exact ⟨rfl, rfl, rfl, ⟨[], by simp⟩⟩
    obtain ⟨g1, g2, g3, more', g4⟩ := hr
    exact ⟨h1.trans g1, h2.trans g2, h3.trans g3, ⟨more' ++ more, by
      rw [h4, g4, List.append_assoc]⟩⟩

theorem waitForPartner_sent (inbox : List (List ByteBuf)) :
    ∀ s w : PlayGameState, waitForPartner inbox s = some w →
      w.game.sent = s.game.sent ∧ w.complete = s.complete ∧ w.score = s.score
      ∧ ∃ more, w.game.events = s.game.events ++ more := by
  induction inbox with
  | nil =>
    intro s w h
    unfold waitForPartner at h
    by_cases hp : s.partnerComplete = true
    · simp [hp] at h; rw [← h]; exact ⟨rfl, rfl, rfl, ⟨[], by simp⟩⟩
    · simp [hp] at h
  | cons arrived rest ih =>
    intro s w h
    unfold waitForPartner at h
    by_cases hp : s.partnerComplete = true
    · simp [hp] at h; rw [← h]; exact ⟨rfl, rfl, rfl, ⟨[], by simp⟩⟩
    · rw [if_neg hp] at h
      obtain ⟨h1, h2, h3, more, h4⟩ := ih _ _ h
      obtain ⟨g1, g2, g3, more', g4⟩ := receiveAll_sent arrived
        { s with game := s.game.emit (Event.scroll "WAITING") }
      refine ⟨?_, h2.trans g2, h3.trans g3, ⟨[Event.scroll "WAITING"] ++ more' ++ [Event.sleep]
        ++ more, ?_⟩⟩
      · rw [h1]
        simp only [Game.sent, Game.emit, List.filterMap_append] at g1 ⊢
        simp only [g1]
        simp
      · rw [h4]
        simp only [Game.emit] at g4 ⊢
        rw [g4]
        simp

theorem receive_keeps_waiting_invariant (s : PlayGameState) (inp : ByteBuf)
    (hinv : s.game.state = GameState.PLAY ∨ s.partnerComplete = true) :
    ((s.receive inp).game.state = GameState.PLAY ∨ (s.receive inp).partnerComplete = true)
      ∧ (s.partnerComplete = true → (s.receive inp).partnerComplete = true)
      ∧ ((inp.readPacketType = PacketType.WORLD_COMPLETE
            ∨ inp.readPacketType = PacketType.QUIT_WORLD
            ∨ inp.readPacketType = PacketType.DISCONNECT) →
          (s.receive inp).partnerComplete = true) := by
  unfold PlayGameState.receive
  by_cases hplay : s.game.state = GameState.PLAY
  · rw [if_pos hplay]
    rcases inp with ⟨t, l⟩
    cases t with
    | WORLD_COMPLETE =>
      refine ⟨Or.inr ?_, fun _ => ?_, fun _ => ?_⟩ <;>
        simp [PlayGameState.onMessage, ByteBuf.readPacketType]
    | QUIT_WORLD =>
      refine ⟨Or.inr ?_, fun _ => ?_, fun _ => ?_⟩ <;>
        simp [PlayGameState.onMessage, ByteBuf.readPacketType, PlayGameState.quitToMenu]
    | DISCONNECT =>
      refine ⟨Or.inr ?_, fun _ => ?_, fun _ => ?_⟩ <;>
        simp [PlayGameState.onMessage, ByteBuf.readPacketType, PlayGameState.quitToMenu]
    | OTHER tag =>
      refine ⟨Or.inl hplay, fun h => h, fun h => ?_⟩
      simp [ByteBuf.readPacketType] at h
  · rw [if_neg hplay]
    have hp : s.partnerComplete = true := hinv.resolve_left hplay
    exact ⟨Or.inr hp, fun h => h, fun _ => hp⟩

theorem receiveAll_keeps_waiting_invariant (arrived : List ByteBuf) :
    ∀ s : PlayGameState, (s.game.state = GameState.PLAY ∨ s.partnerComplete = true) →
      ((arrived.foldl receive s).game.state = GameState.PLAY
          ∨ (arrived.foldl receive s).partnerComplete = true)
      ∧ (s.partnerComplete = true → (arrived.foldl receive s).partnerComplete = true)
      ∧ ((∃ inp ∈ arrived, inp.readPacketType = PacketType.WORLD_COMPLETE
            ∨ inp.readPacketType = PacketType.QUIT_WORLD
            ∨ inp.readPacketType = PacketType.DISCONNECT) →
          (arrived.foldl receive s).partnerComplete = true) := by
  induction arrived with
  | nil =>
    intro s hinv
    refine ⟨hinv, fun h => h, fun h => ?_⟩
    obtain ⟨inp, hmem, _⟩ := h
    exact absurd hmem (List.not_mem_nil inp)
  | cons inp rest ih =>
    intro s hinv
    obtain ⟨r1, r2, r3⟩ := receive_keeps_waiting_invariant s inp hinv
    obtain ⟨i1, i2, i3⟩ := ih (s.receive inp) r1
    simp only [List.foldl_cons]
    refine ⟨i1, fun h => i2 (r2 h), fun h => ?_⟩
    obtain ⟨p, hmem, hrec⟩ := h
    rcases List.mem_cons.mp hmem with hp | hp
    · subst hp
      exact i2 (r3 hrec)
    · exact i3 ⟨p, hp, hrec⟩

theorem waitForPartner_returns (inbox : List (List ByteBuf)) :
    ∀ s : PlayGameState, (s.game.state = GameState.PLAY ∨ s.partnerComplete = true) →
      (∃ arrived ∈ inbox, ∃ inp ∈ arrived, inp.readPacketType = PacketType.WORLD_COMPLETE
            ∨ inp.readPacketType = PacketType.QUIT_WORLD
            ∨ inp.readPacketType = PacketType.DISCONNECT) →
      ∃ w, waitForPartner inbox s = some w := by
  induction inbox with
  | nil =>
    intro s _ h
    obtain ⟨arrived, hmem, _⟩ := h
    exact absurd hmem (List.not_mem_nil arrived)
  | cons arrived rest ih =>
    intro s hinv h
    by_cases hp : s.partnerComplete = true
    · exact ⟨s, waitForPartner_of_complete _ s hp⟩
    · unfold waitForPartner
      rw [if_neg hp]
      have hinv1 : ({ s with game := s.game.emit (Event.scroll "WAITING") } : PlayGameState).game.state
            = GameState.PLAY
          ∨ ({ s with game := s.game.emit (Event.scroll "WAITING") } : PlayGameState).partnerComplete
            = true := hinv
      obtain ⟨i1, _, i3⟩ := receiveAll_keeps_waiting_invariant arrived _ hinv1
      obtain ⟨batch, hmem, hrec⟩ := h
      rcases List.mem_cons.mp hmem with hb | hb
      · subst hb
        exact ⟨_, waitForPartner_of_complete _ _ (i3 hrec)⟩
      · exact ih _ i1 ⟨batch, hb, hrec⟩

/-- C14: a tick that finds the player on a `FLAG` tile runs `handleCompletion`.
Single-player: it returns, with `complete` true, no packet sent and Menu the active state.
Multiplayer: whenever it returns, `complete` is true, the first collaborator call it made
is the send of `WORLD_COMPLETE` carrying the score at that moment (so before any waiting),
that is the only packet sent, and Menu is the active state; and it does return when the
partner is already complete, or when Play is active and a packet with a recognised tag
arrives during the wait. -/
theorem tick_on_flag_completes (inbox : List (List ByteBuf)) (accelerometerX : Int)
    (s : PlayGameState)
    (hflag : s.world.getBlock s.player.location = BlockType.FLAG) :
    (s.game.multiplayer = false →
      ∃ s', tick inbox accelerometerX s = some s'
        ∧ s'.complete = true
        ∧ s'.game.sent = s.game.sent
        ∧ s'.game.events = s.game.events ++
            [Event.scroll "WINNER! SCORE:", Event.scrollNumber s.score, Event.stopAnimation,
             Event.setState GameState.MENU]
        ∧ s'.game.state = GameState.MENU)
    ∧ (s.game.multiplayer = true →
      (∀ s', tick inbox accelerometerX s = some s' →
        s'.complete = true
        ∧ s'.game.sent = s.game.sent
            ++ [{ packetType := PacketType.WORLD_COMPLETE, ints := [s.score] }]
        ∧ (∃ more, s'.game.events = s.game.events ++
            Event.sendPacket { packetType := PacketType.WORLD_COMPLETE, ints := [s.score] }
              :: more)
        ∧ s'.game.state = GameState.MENU)
      ∧ (s.partnerComplete = true → ∃ s', tick inbox accelerometerX s = some s')
      ∧ (s.game.state = GameState.PLAY →
          (∃ arrived ∈ inbox, ∃ inp ∈ arrived,
            inp.readPacketType = PacketType.WORLD_COMPLETE
            ∨ inp.readPacketType = PacketType.QUIT_WORLD
            ∨ inp.readPacketType = PacketType.DISCONNECT) →
          ∃ s', tick inbox accelerometerX s = some s')) := by
  have htick : tick inbox accelerometerX s
      = handleCompletion inbox { s with lookups := s.lookups ++ [s.player.location] } := by
    unfold PlayGameState.tick
    simp only [PlayGameState.getBlock]
    rw [if_pos hflag]
  rw [htick]
  constructor
  · intro hsingle
    unfold handleCompletion
    simp only [hsingle, Bool.false_eq_true, if_false, Option.map_some']
    refine ⟨_, rfl, rfl, ?_, ?_, rfl⟩
    · simp [PlayGameState.quitToMenu, Game.setState, Game.emit, Game.sent]
    · simp [PlayGameState.quitToMenu, Game.setState, Game.emit]
  · intro hmulti
    unfold handleCompletion
    simp only [hmulti, if_true]
    refine ⟨?_, ?_, ?_⟩
    · intro s' h
      simp only [Option.map_eq_some'] at h
      obtain ⟨a, ⟨w, hw, ha⟩, hs⟩ := h
      obtain ⟨h1, h2, _, more, h4⟩ := waitForPartner_sent _ _ _ hw
      subst hs
      subst ha
      refine ⟨?_, ?_, ?_, rfl⟩
      · split_ifs <;> exact h2
      · split_ifs <;>
          simp [PlayGameState.quitToMenu, Game.setState, Game.emit, Game.sent,
            List.filterMap_append] <;>
          simpa [Game.sent, Game.sendPacket, Game.emit, Game.createPacket,
            ByteBuf.writePacketType, ByteBuf.writeInt, List.filterMap_append] using h1
      · split_ifs <;>
          simp only [PlayGameState.quitToMenu, Game.setState, Game.emit, h4, Game.sendPacket,
            Game.createPacket, ByteBuf.writePacketType, ByteBuf.writeInt, List.append_assoc,
            List.singleton_append, List.nil_append] <;>
          exact ⟨_, rfl⟩
    · intro hp
      rw [waitForPartner_of_complete _ _ (by simpa using hp)]
      exact ⟨_, rfl⟩
    · intro hplay hrec
      obtain ⟨w, hw⟩ := waitForPartner_returns inbox
        { s with complete := true, lookups := s.lookups ++ [s.player.location],
                 game := s.game.sendPacket
                   ((Game.createPacket.writePacketType PacketType.WORLD_COMPLETE).writeInt
                     s.score) }
        (Or.inl hplay) hrec
      rw [hw]
      exact ⟨_, rfl⟩

/-- Witness for C14: multiplayer, on the flag (6,1) of `floorWorld` with score 0, the
partner's `WORLD_COMPLETE` with score 2 arriving during the first wait iteration. -/
theorem tick_on_flag_completes_witness :
    ∃ s', tick [[{ packetType := PacketType.WORLD_COMPLETE, ints := [2] }]] 0
          (exampleSession true floorWorld { x := 6, y := 1 }) = some s'
      ∧ s'.complete = true
      ∧ s'.game.sent = [{ packetType := PacketType.WORLD_COMPLETE, ints := [0] }]
      ∧ s'.game.state = GameState.MENU := by
  obtain ⟨hall, _, hret⟩ :=
    (tick_on_flag_completes [[{ packetType := PacketType.WORLD_COMPLETE, ints := [2] }]] 0
      (exampleSession true floorWorld { x := 6, y := 1 }) (by decide)).2 rfl
  obtain ⟨s', h⟩ := hret rfl
    ⟨[{ packetType := PacketType.WORLD_COMPLETE, ints := [2] }], List.mem_singleton.mpr rfl,
      { packetType := PacketType.WORLD_COMPLETE, ints := [2] }, List.mem_singleton.mpr rfl,
      Or.inl rfl⟩
  exact ⟨s', h, (hall s' h).1, (hall s' h).2.1, (hall s' h).2.2.2⟩

/-! ## Session: right tilt -/

/-- C18, as stated, fails: in `airWorld` (`maxX` = 5) a player in column 3, which is left of
the right edge column `maxX - 1` = 4, with the tile to the right not `SOLID`, zero horizontal
velocity and tilt 400, is not moved by the horizontal step of `Session::tick`, nor by a whole
`Session::tick` that falls from (3,3) to (3,2); the same step of `PlayGameState::tick` moves
it to column 4. -/
theorem session_right_tilt_stops_early :
    (3 : Int) < airWorld.maxX - 1
    ∧ airWorld.getBlock { x := 4, y := 2 } ≠ BlockType.SOLID
    ∧ (Session.tickHorizontal 400 (exampleRun airWorld { x := 3, y := 2 })).player.location
        = { x := 3, y := 2 }
    ∧ (Session.tick 400 (exampleRun airWorld { x := 3, y := 3 })).player.location
        = { x := 3, y := 2 }
    ∧ (tickHorizontal 400 (exampleSession false airWorld { x := 3, y := 2 })).player.location
        = { x := 4, y := 2 } := by
  decide

/-- C18, amended: the right-tilt rule of `Session::tick`. For a state at the horizontal step
with zero horizontal velocity and a tilt reading above 300: if the tile to the right is not
`SOLID` and `x < maxX - 2`, the step increases `x` by exactly 1; if `x >= maxX - 2` it leaves
`x` unchanged. -/
theorem session_right_tilt_nudge (accelerometerX : Int) (s : Session)
    (hvel : s.player.velocity.x = 0)
    (htilt : accelerometerX > 300) :
    (s.world.getBlock (s.player.location.getRelative 1 0) ≠ BlockType.SOLID →
      s.player.location.x < s.world.maxX - 2 →
      (Session.tickHorizontal accelerometerX s).player.location.x = s.player.location.x + 1)
    ∧ (s.world.maxX - 2 ≤ s.player.location.x →
      (Session.tickHorizontal accelerometerX s).player.location.x = s.player.location.x) := by
  constructor
  · intro hright hedge
    unfold Session.tickHorizontal
    simp only [Session.getBlock]
    split_ifs <;> simp only [Vector2i.addX] at * <;> first | omega | tauto
  · intro hedge
    unfold Session.tickHorizontal
    simp only [Session.getBlock]
    split_ifs <;> simp only [Vector2i.addX] at * <;> omega

/-- Witness for C18, amended: columns 2 and 3 of `airWorld`, tilt 400. -/
theorem session_right_tilt_nudge_witness :
    (Session.tickHorizontal 400 (exampleRun airWorld { x := 2, y := 2 })).player.location.x
      = 2 + 1
    ∧ (Session.tickHorizontal 400 (exampleRun airWorld { x := 3, y := 2 })).player.location.x
      = 3 :=
  ⟨(session_right_tilt_nudge 400 (exampleRun airWorld { x := 2, y := 2 }) rfl (by decide)).1
      (by decide) (by decide),
   (session_right_tilt_nudge 400 (exampleRun airWorld { x := 3, y := 2 }) rfl (by decide)).2
      (by decide)⟩

/-! ## Render: pixels -/

theorem renderBlock_displayCoins (ox oy x y : Int) (s : PlayGameState) :
    (renderBlock ox oy x y s).displayCoins = s.displayCoins := by
  unfold renderBlock
  simp only [PlayGameState.getBlock]
  split <;> [skip; skip; skip; split_ifs] <;> rfl

theorem setPixelValue_screen_other (g : Game) (x y : Int) (v : Nat) (a b : Int)
    (h : ¬ (a = x ∧ b = y)) : (g.setPixelValue x y v).screen a b = g.screen a b := by
  unfold Game.setPixelValue
  split_ifs
  · simp only [if_neg h]
  · rfl

theorem setPixelValue_screen_self (g : Game) (x y : Int) (v : Nat)
    (hx0 : 0 ≤ x) (hx1 : x < 5) (hy0 : 0 ≤ y) (hy1 : y < 5) :
    (g.setPixelValue x y v).screen x y = v := by
  unfold Game.setPixelValue
  rw [if_pos ⟨hx0, hx1, hy0, hy1⟩]
  simp

theorem renderBlock_screen_other (ox oy x y : Int) (s : PlayGameState) (a b : Int)
    (h : ¬ (a = toUInt16 x ∧ b = toUInt16 ((SCREEN_SIZE - 1) - y))) :
    (renderBlock ox oy x y s).game.screen a b = s.game.screen a b := by
  unfold renderBlock
  simp only [PlayGameState.getBlock]
  split <;> [skip; skip; skip; split_ifs] <;>
    first
      | rfl
      | exact setPixelValue_screen_other _ _ _ _ _ _ h

theorem renderBlock_screen_self (ox oy x y : Int) (s : PlayGameState)
    (hx0 : 0 ≤ x) (hx1 : x < SCREEN_SIZE) (hy0 : 0 ≤ y) (hy1 : y < SCREEN_SIZE) :
    (renderBlock ox oy x y s).game.screen x ((SCREEN_SIZE - 1) - y)
      = blockBrightness (s.world.getBlock (s.player.location.getRelative (x - ox) (y - oy)))
          s.displayCoins (s.game.screen x ((SCREEN_SIZE - 1) - y)) := by
  have hx : toUInt16 x = x := by
    unfold toUInt16; simp only [SCREEN_SIZE] at hx1; omega
  have hy : toUInt16 ((SCREEN_SIZE - 1) - y) = (SCREEN_SIZE - 1) - y := by
    unfold toUInt16; simp only [SCREEN_SIZE] at hy1 ⊢; omega
  have hpix : ∀ v : Nat, (s.game.setPixelValue x ((SCREEN_SIZE - 1) - y) v).screen x
      ((SCREEN_SIZE - 1) - y) = v := by
    intro v
    apply setPixelValue_screen_self
    · exact hx0
    · simpa [SCREEN_SIZE] using hx1
    · simp only [SCREEN_SIZE] at hy1 ⊢; omega
    · simp only [SCREEN_SIZE] at hy0 ⊢; omega
  unfold renderBlock
  simp only [PlayGameState.getBlock, hx, hy]
  cases hb : s.world.getBlock (s.player.location.getRelative (x - ox) (y - oy)) with
  | AIR => rfl
  | SOLID => exact hpix 16
  | FLAG => exact hpix 48
  | COIN =>
    cases hd : s.displayCoins with
    | true => simp only [blockBrightness, if_true]; exact hpix 96
    | false => simp [blockBrightness]

theorem renderColumn_displayCoins (ox oy x : Int) (ys : List Int) :
    ∀ s : PlayGameState,
      (ys.foldl (fun s y => renderBlock ox oy x y s) s).displayCoins = s.displayCoins := by
  induction ys with
  | nil => intro s; rfl
  | cons y ys ih =>
    intro s
    simp only [List.foldl_cons]
    rw [ih, renderBlock_displayCoins]

theorem renderColumn_screen_other (ox oy x : Int) (a b : Int) (ys : List Int) :
    ∀ s : PlayGameState,
      (∀ y ∈ ys, ¬ (a = toUInt16 x ∧ b = toUInt16 ((SCREEN_SIZE - 1) - y))) →
      (ys.foldl (fun s y => renderBlock ox oy x y s) s).game.screen a b = s.game.screen a b := by
  induction ys with
  | nil => intro s _; rfl
  | cons y ys ih =>
    intro s h
    simp only [List.foldl_cons]
    rw [ih _ (fun y' hy' => h y' (List.mem_cons_of_mem _ hy')),
      renderBlock_screen_other _ _ _ _ _ _ _ (h y (List.mem_cons_self _ _))]

theorem toUInt16_of_screen (x : Int) (hx0 : 0 ≤ x) (hx1 : x < SCREEN_SIZE) :
    toUInt16 x = x := by
  unfold toUInt16; simp only [SCREEN_SIZE] at hx1; omega

theorem toUInt16_of_row (y : Int) (hy0 : 0 ≤ y) (hy1 : y < SCREEN_SIZE) :
    toUInt16 ((SCREEN_SIZE - 1) - y) = (SCREEN_SIZE - 1) - y := by
  unfold toUInt16; simp only [SCREEN_SIZE] at hy1 ⊢; omega

theorem renderColumn_screen_self (ox oy x : Int) (hx0 : 0 ≤ x) (hx1 : x < SCREEN_SIZE)
    (y0 : Int) (ys : List Int) :
    ∀ s : PlayGameState, ys.Nodup → (∀ y ∈ ys, 0 ≤ y ∧ y < SCREEN_SIZE) → y0 ∈ ys →
      (ys.foldl (fun s y => renderBlock ox oy x y s) s).game.screen x ((SCREEN_SIZE - 1) - y0)
        = blockBrightness
            (s.world.getBlock (s.player.location.getRelative (x - ox) (y0 - oy)))
            s.displayCoins (s.game.screen x ((SCREEN_SIZE - 1) - y0)) := by
  induction ys with
  | nil => intro s _ _ h; exact absurd h (List.not_mem_nil y0)
  | cons y ys ih =>
    intro s hnd hrange hmem
    have hyr := hrange y (List.mem_cons_self _ _)
    have hrest : ∀ y' ∈ ys, 0 ≤ y' ∧ y' < SCREEN_SIZE :=
      fun y' hy' => hrange y' (List.mem_cons_of_mem _ hy')
    have hnd' := (List.nodup_cons.mp hnd)
    simp only [List.foldl_cons]
    by_cases hy : y0 = y
    · subst hy
      rw [renderColumn_screen_other]
      · exact renderBlock_screen_self ox oy x y0 s hx0 hx1 hyr.1 hyr.2
      · intro y' hy' hcontra
        have hr := hrest y' hy'
        rw [toUInt16_of_row y' hr.1 hr.2] at hcontra
        have : y' = y0 := by omega
        subst this
        exact hnd'.1 hy'
    · have hmem' : y0 ∈ ys := by
        rcases List.mem_cons.mp hmem with h | h
        · exact absurd h hy
        · exact h
      have hr0 := hrest y0 hmem'
      rw [ih _ hnd'.2 hrest hmem', renderBlock_world, renderBlock_player,
        renderBlock_displayCoins, renderBlock_screen_other]
      intro hcontra
      rw [toUInt16_of_row y hyr.1 hyr.2] at hcontra
      exact hy (by omega)

theorem renderRows_displayCoins (ox oy : Int) (ys xs : List Int) :
    ∀ s : PlayGameState,
      (xs.foldl (fun s x => ys.foldl (fun s y => renderBlock ox oy x y s) s) s).displayCoins
        = s.displayCoins := by
  induction xs with
  | nil => intro s; rfl
  | cons x xs ih =>
    intro s
    simp only [List.foldl_cons]
    rw [ih, renderColumn_displayCoins]

theorem renderRows_screen_other (ox oy : Int) (a b : Int) (ys xs : List Int) :
    ∀ s : PlayGameState,
      (∀ x ∈ xs, ∀ y ∈ ys, ¬ (a = toUInt16 x ∧ b = toUInt16 ((SCREEN_SIZE - 1) - y))) →
      (xs.foldl (fun s x => ys.foldl (fun s y => renderBlock ox oy x y s) s) s).game.screen a b
        = s.game.screen a b := by
  induction xs with
  | nil => intro s _; rfl
  | cons x xs ih =>
    intro s h
    simp only [List.foldl_cons]
    rw [ih _ (fun x' hx' => h x' (List.mem_cons_of_mem _ hx')),
      renderColumn_screen_other _ _ _ _ _ _ _ (h x (List.mem_cons_self _ _))]

theorem renderRows_screen_self (ox oy : Int) (x0 y0 : Int) (ys : List Int)
    (hynd : ys.Nodup) (hyrange : ∀ y ∈ ys, 0 ≤ y ∧ y < SCREEN_SIZE) (hy0 : y0 ∈ ys)
    (xs : List Int) :
    ∀ s : PlayGameState, xs.Nodup → (∀ x ∈ xs, 0 ≤ x ∧ x < SCREEN_SIZE) → x0 ∈ xs →
      (xs.foldl (fun s x => ys.foldl (fun s y => renderBlock ox oy x y s) s) s).game.screen x0
          ((SCREEN_SIZE - 1) - y0)
        = blockBrightness
            (s.world.getBlock (s.player.location.getRelative (x0 - ox) (y0 - oy)))
            s.displayCoins (s.game.screen x0 ((SCREEN_SIZE - 1) - y0)) := by
  induction xs with
  | nil => intro s _ _ h; exact absurd h (List.not_mem_nil x0)
  | cons x xs ih =>
    intro s hnd hrange hmem
    have hxr := hrange x (List.mem_cons_self _ _)
    have hrest : ∀ x' ∈ xs, 0 ≤ x' ∧ x' < SCREEN_SIZE :=
      fun x' hx' => hrange x' (List.mem_cons_of_mem _ hx')
    have hnd' := (List.nodup_cons.mp hnd)
    simp only [List.foldl_cons]
    by_cases hx : x0 = x
    · subst hx
      rw [renderRows_screen_other]
      · exact renderColumn_screen_self ox oy x0 hxr.1 hxr.2 y0 ys s hynd hyrange hy0
      · intro x' hx' y' _ hcontra
        have hr := hrest x' hx'
        rw [toUInt16_of_screen x' hr.1 hr.2] at hcontra
        have : x' = x0 := hcontra.1.symm
        subst this
        exact hnd'.1 hx'
    · have hmem' : x0 ∈ xs := by
        rcases List.mem_cons.mp hmem with h | h
        · exact absurd h hx
        · exact h
      obtain ⟨hp, hw, _⟩ := renderColumn_frame ox oy x ys s
      rw [ih _ hnd'.2 hrest hmem', hw, hp, renderColumn_displayCoins,
        renderColumn_screen_other]
      intro y' _ hcontra
      rw [toUInt16_of_screen x hxr.1 hxr.2] at hcontra
      exact hx hcontra.1

theorem screenRange_nodup : screenRange.Nodup := by decide

/-- What `render` leaves in the pixel that shows screen coordinate `(x, y)`: the brightness
of the block shown there, over the value the pixel has once the player has been painted. -/
theorem render_pixel (s : PlayGameState) (x y : Int)
    (hx0 : 0 ≤ x) (hx1 : x < SCREEN_SIZE) (hy0 : 0 ≤ y) (hy1 : y < SCREEN_SIZE) :
    (render s).game.screen x ((SCREEN_SIZE - 1) - y)
      = blockBrightness
          (s.world.getBlock (s.player.location.getRelative
            (x - (renderOffset s.world s.player.location).1)
            (y - (renderOffset s.world s.player.location).2)))
          s.displayCoins
          ((s.game.setPixelValue (toUInt16 (renderOffset s.world s.player.location).1)
            (toUInt16 ((SCREEN_SIZE - 1) - (renderOffset s.world s.player.location).2))
            255).screen x ((SCREEN_SIZE - 1) - y)) := by
  have h := renderRows_screen_self (renderOffset s.world s.player.location).1
    (renderOffset s.world s.player.location).2 x y screenRange screenRange_nodup
    (fun y' hy' => (mem_screenRange y').mp hy') ((mem_screenRange y).mpr ⟨hy0, hy1⟩)
    screenRange
    { s with game := (s.game.setPixelValue
        (toUInt16 (renderOffset s.world s.player.location).1)
        (toUInt16 ((SCREEN_SIZE - 1) - (renderOffset s.world s.player.location).2)) 255) }
    screenRange_nodup (fun x' hx' => (mem_screenRange x').mp hx')
    ((mem_screenRange x).mpr ⟨hx0, hx1⟩)
  exact h

theorem renderOffset_on_screen (w : World) (loc : Vector2i) (h : w.inBounds loc) :
    (0 ≤ (renderOffset w loc).1 ∧ (renderOffset w loc).1 < SCREEN_SIZE)
      ∧ (0 ≤ (renderOffset w loc).2 ∧ (renderOffset w loc).2 < SCREEN_SIZE) := by
  unfold World.inBounds at h
  unfold renderOffset
  simp only [SCREEN_SIZE, SCREEN_CENTER]
  split_ifs <;> omega

/-- C16: what `render` paints for the blocks. Take a screen coordinate `(x, y)` with
`0 <= x, y < SCREEN_SIZE` other than the player's own: the player is in the world and
`(x, y)` is not `(offsetX, offsetY)`, or, wherever the player is, the pixel is not the one the
player is painted at. After `render` the pixel in column `x`, row `SCREEN_SIZE - 1 - y` is
16 if the block at `(px + x - offsetX, py + y - offsetY)` is `SOLID`, 48 if it is `FLAG`,
96 if it is `COIN` and `displayCoins` is true, and keeps the value it had before `render`
(the background of a cleared buffer) if the block is `AIR`, or `COIN` while `displayCoins`
is false. -/
theorem render_paints_blocks (s : PlayGameState) (x y : Int)
    (hx0 : 0 ≤ x) (hx1 : x < SCREEN_SIZE) (hy0 : 0 ≤ y) (hy1 : y < SCREEN_SIZE)
    (hother :
      (s.world.inBounds s.player.location
        ∧ (x ≠ (renderOffset s.world s.player.location).1
            ∨ y ≠ (renderOffset s.world s.player.location).2))
      ∨ (x ≠ toUInt16 (renderOffset s.world s.player.location).1
          ∨ (SCREEN_SIZE - 1) - y
              ≠ toUInt16 ((SCREEN_SIZE - 1) - (renderOffset s.world s.player.location).2))) :
    (s.world.getBlock
          { x := s.player.location.x + (x - (renderOffset s.world s.player.location).1),
            y := s.player.location.y + (y - (renderOffset s.world s.player.location).2) }
        = BlockType.SOLID →
      (render s).game.screen x ((SCREEN_SIZE - 1) - y) = 16)
    ∧ (s.world.getBlock
          { x := s.player.location.x + (x - (renderOffset s.world s.player.location).1),
            y := s.player.location.y + (y - (renderOffset s.world s.player.location).2) }
        = BlockType.FLAG →
      (render s).game.screen x ((SCREEN_SIZE - 1) - y) = 48)
    ∧ (s.world.getBlock
          { x := s.player.location.x + (x - (renderOffset s.world s.player.location).1),
            y := s.player.location.y + (y - (renderOffset s.world s.player.location).2) }
        = BlockType.COIN → s.displayCoins = true →
      (render s).game.screen x ((SCREEN_SIZE - 1) - y) = 96)
    ∧ (s.world.getBlock
          { x := s.player.location.x + (x - (renderOffset s.world s.player.location).1),
            y := s.player.location.y + (y - (renderOffset s.world s.player.location).2) }
        = BlockType.COIN → s.displayCoins = false →
      (render s).game.screen x ((SCREEN_SIZE - 1) - y)
        = s.game.screen x ((SCREEN_SIZE - 1) - y))
    ∧ (s.world.getBlock
          { x := s.player.location.x + (x - (renderOffset s.world s.player.location).1),
            y := s.player.location.y + (y - (renderOffset s.world s.player.location).2) }
        = BlockType.AIR →
      (render s).game.screen x ((SCREEN_SIZE - 1) - y)
        = s.game.screen x ((SCREEN_SIZE - 1) - y)) := by
  have hpixel : x ≠ toUInt16 (renderOffset s.world s.player.location).1
      ∨ (SCREEN_SIZE - 1) - y
          ≠ toUInt16 ((SCREEN_SIZE - 1) - (renderOffset s.world s.player.location).2) := by
    rcases hother with ⟨hin, hne⟩ | h
    · obtain ⟨hox, hoy⟩ := renderOffset_on_screen _ _ hin
      rw [toUInt16_of_screen _ hox.1 hox.2, toUInt16_of_row _ hoy.1 hoy.2]
      rcases hne with h | h
      · exact Or.inl h
      · exact Or.inr (by omega)
    · exact h
  have hbg : (s.game.setPixelValue (toUInt16 (renderOffset s.world s.player.location).1)
      (toUInt16 ((SCREEN_SIZE - 1) - (renderOffset s.world s.player.location).2))
      255).screen x ((SCREEN_SIZE - 1) - y) = s.game.screen x ((SCREEN_SIZE - 1) - y) := by
    apply setPixelValue_screen_other
    intro hcontra
    rcases hpixel with h | h
    · exact h hcontra.1
    · exact h hcontra.2
  have hpix := render_pixel s x y hx0 hx1 hy0 hy1
  rw [hbg] at hpix
  simp only [Vector2i.getRelative] at hpix
  refine ⟨?_, ?_, ?_, ?_, ?_⟩
  · intro hb; rw [hpix, hb]; rfl
  · intro hb; rw [hpix, hb]; rfl
  · intro hb hd; rw [hpix, hb, hd]; rfl
  · intro hb hd; rw [hpix, hb, hd]; rfl
  · intro hb; rw [hpix, hb]; rfl

/-- Witness for C16: the player at (4,1) of `floorWorld`; screen coordinate (0,0) shows the
floor tile (2,0), screen coordinate (4,1) shows the flag (6,1). -/
theorem render_paints_blocks_witness :
    (render (exampleSession false floorWorld { x := 4, y := 1 })).game.screen 0
        ((SCREEN_SIZE - 1) - 0) = 16
    ∧ (render (exampleSession false floorWorld { x := 4, y := 1 })).game.screen 4
        ((SCREEN_SIZE - 1) - 1) = 48 :=
  ⟨(render_paints_blocks (exampleSession false floorWorld { x := 4, y := 1 }) 0 0
      (by decide) (by decide) (by decide) (by decide)
      (Or.inl ⟨by decide, by decide⟩)).1 (by decide),
   (render_paints_blocks (exampleSession false floorWorld { x := 4, y := 1 }) 4 1
      (by decide) (by decide) (by decide) (by decide)
      (Or.inl ⟨by decide, by decide⟩)).2.1 (by decide)⟩

/-- What `render` leaves in the player's own pixel, for a player in the world: the brightness
of the block on the player's tile painted over the 255 of the player, so 255 only on `AIR`
(or on `COIN` while `displayCoins` is false). -/
theorem render_player_pixel (s : PlayGameState) (hin : s.world.inBounds s.player.location) :
    (render s).game.screen (renderOffset s.world s.player.location).1
        ((SCREEN_SIZE - 1) - (renderOffset s.world s.player.location).2)
      = blockBrightness (s.world.getBlock s.player.location) s.displayCoins 255 := by
  obtain ⟨hox, hoy⟩ := renderOffset_on_screen _ _ hin
  have hpix := render_pixel s _ _ hox.1 hox.2 hoy.1 hoy.2
  rw [toUInt16_of_screen _ hox.1 hox.2, toUInt16_of_row _ hoy.1 hoy.2,
    setPixelValue_screen_self] at hpix
  · rw [hpix]
    simp [Vector2i.getRelative]
  · exact hox.1
  · simpa [SCREEN_SIZE] using hox.2
  · simp only [SCREEN_SIZE] at hoy ⊢; omega
  · simp only [SCREEN_SIZE] at hoy ⊢; omega

/-- C13 fails on the code: `render` paints the player's pixel 255 first and the block loop
then paints over it. After a tick that walks the player from (5,1) onto the flag (6,1) of
`floorWorld`, with Play still active, the player's pixel (3, 4 - 1) is 48; after a tick
that walks the player from (2,1) onto the coin (1,1), with `displayCoins` now true, the
player's pixel (1, 4 - 1) is 96. -/
theorem render_player_pixel_painted_over :
    (tick [] 400 (exampleSession false floorWorld { x := 5, y := 1 })).map
        (fun s => (s.player.location, s.game.state, renderOffset s.world s.player.location,
          (render s).game.screen 3 ((SCREEN_SIZE - 1) - 1)))
      = some ({ x := 6, y := 1 }, GameState.PLAY, (3, 1), 48)
    ∧ (tick [] (-400) (exampleSession false floorWorld { x := 2, y := 1 })).map
        (fun s => (s.player.location, s.game.state, s.displayCoins,
          renderOffset s.world s.player.location,
          (render s).game.screen 1 ((SCREEN_SIZE - 1) - 1)))
      = some ({ x := 1, y := 1 }, GameState.PLAY, true, (1, 1), 96) := by
  decide

end platformer
